import Mathlib

/-!
Verification development for the mcp-jvm-debugger repository.

The definitions below are shallow embeddings, translated from the
repository's sources:

* planner probe tools (`isLineKey`, `resolveProbeKey`, `probeStatus`,
  `probeReset`, `probeWaitHit` in `src/tools/probe tools`),
* the in-process agent runtime (`ProbeRuntime.java`, `AgentConfig.java`),
* target inference (`scoreCandidate`, `inferTargets`),
* request-candidate inference (`buildRecipeCandidate`),
* the execution-plan builder (`buildRecipeExecutionPlan`),
* auth resolution (`resolveAuthForRecipe`).

JavaScript numbers that hold counts, epochs and line numbers are modelled
as `Int`; nullable / undefined values as `Option`; `async` file and HTTP
reads as explicit parameters holding the values those reads produce.
-/

namespace Spec2Proof

/-! ## Shared string helpers (Java / JS semantics, ASCII range) -/

/-- `String.trim` of Java: drop leading/trailing chars with code ≤ U+0020.
JavaScript `String.prototype.trim` agrees on ASCII whitespace. -/
def javaTrim (s : String) : String :=
  ⟨((s.data.dropWhile (fun c => c.val ≤ 32)).reverse.dropWhile
      (fun c => c.val ≤ 32)).reverse⟩

/-- Java `String.isBlank` over the ASCII range: every char is whitespace. -/
def javaIsBlank (s : String) : Bool :=
  s.data.all (fun c => c.val ≤ 32)

/-- ASCII lower-casing, as used by `toLowerCase` on the identifiers involved. -/
def lowerStr (s : String) : String :=
  ⟨s.data.map Char.toLower⟩

/-- Split at every occurrence of `sep` (semantics of JS
`String.prototype.split` with a single-char separator). -/
def splitOnChar (sep : Char) : List Char → List (List Char)
  | [] => [[]]
  | c :: tl =>
    let rest := splitOnChar sep tl
    if c = sep then [] :: rest
    else
      match rest with
      | [] => [[c]]
      | r :: rs => (c :: r) :: rs

/-- String-level wrapper for `splitOnChar`. -/
def strSplitOnChar (s : String) (sep : Char) : List String :=
  (splitOnChar sep s.data).map (fun cs => ⟨cs⟩)

/-- Replace every occurrence of `pattern` by `repl`, left to right
(JS `String.prototype.replace` with a global literal pattern). -/
def replaceSub (pattern repl : List Char) : List Char → List Char
  | [] => []
  | c :: tl =>
    if h : pattern.isPrefixOf (c :: tl) ∧ pattern ≠ [] then
      repl ++ replaceSub pattern repl ((c :: tl).drop pattern.length)
    else c :: replaceSub pattern repl tl
  termination_by s => s.length
  decreasing_by
    · simp only [List.length_drop]
      have : 1 ≤ pattern.length := by
        cases pattern with
        | nil => exact absurd rfl h.2
        | cons p ps => simp
      simp only [List.length_cons]
      omega
    · simp

/-- String-level wrapper for `replaceSub`. -/
def strReplace (s pattern repl : String) : String :=
  ⟨replaceSub pattern.data repl.data s.data⟩

/-- Whether `n` occurs as a contiguous sublist of `h`. -/
def listInfixOf (n : List Char) : List Char → Bool
  | [] => n.isEmpty
  | c :: t => n.isPrefixOf (c :: t) || listInfixOf n t

/-- Substring test (JS `String.prototype.includes`). -/
def strIncludes (hay needle : String) : Bool :=
  listInfixOf needle.data hay.data

/-- JS `str.endsWith(suffix)`. -/
def strEndsWith (s suffix : String) : Bool :=
  suffix.data.reverse.isPrefixOf s.data.reverse

/-! ## Strict line keys (planner probe tools)

The probe tools test keys against the JS regex `/#[^:]+:\d+$/`
(`isLineKey`).  The spec instead writes the regex `.+#[^:]+:\d+$`.
Both are implemented below by scanning the key from its end:
a run of digits, a colon, then a colon-free nonempty run that is
terminated by a `#`; the spec variant additionally demands a nonempty
(non-newline) character right before that `#`. -/

/-- Scan the reversed characters that precede the `:` of the line suffix.
`seen` counts the non-colon characters consumed so far.  Succeeds when a
`#` is found with at least one non-colon character between it and the
colon; with `needPrefix` the match also needs one non-newline character
before the `#` (the spec's `.+`).  A `#` that cannot serve as the
delimiter is consumed as an ordinary `[^:]` character. -/
def findHashBeforeColon (needPrefix : Bool) : Nat → List Char → Bool
  | _, [] => false
  | seen, c :: tl =>
    if c = ':' then false
    else if c = '#' && seen ≥ 1 &&
        (!needPrefix || (match tl with
          | [] => false
          | d :: _ => d ≠ '\n')) then true
    else findHashBeforeColon needPrefix (seen + 1) tl

/-- Core of the line-key test: reversed key must start with digits, a
colon, then satisfy `findHashBeforeColon`. -/
def lineKeyCheck (needPrefix : Bool) (s : String) : Bool :=
  let r := s.data.reverse
  let ds := r.takeWhile (fun c => c.isDigit)
  if ds.isEmpty then false
  else
    match r.drop ds.length with
    | ':' :: rest => findHashBeforeColon needPrefix 0 rest
    | _ => false

/-- `isLineKey` from the probe tools: JS `/#[^:]+:\d+$/.test(key)`. -/
def isLineKey (key : String) : Bool :=
  lineKeyCheck false key

/-- The line-key regex as written in the spec: `.+#[^:]+:\d+$`. -/
def specIsLineKey (key : String) : Bool :=
  lineKeyCheck true key

/-- `resolveProbeKey` from the probe tools. -/
def resolveProbeKey (key : String) (lineHint : Option Int) : String :=
  match lineHint with
  | none => key
  | some h => if isLineKey key then key else key ++ ":" ++ toString h

/-- "Key ends in a `:<digits>` suffix": the literal reading of the words
used by the claim about `resolveProbeKey` (a nonempty digit run preceded
by a colon, at the very end of the key). -/
def endsInLineSuffix (s : String) : Bool :=
  let r := s.data.reverse
  let ds := r.takeWhile (fun c => c.isDigit)
  if ds.isEmpty then false
  else
    match r.drop ds.length with
    | ':' :: _ => true
    | _ => false

/-! ## Strict-line gate of the three verifier tools

`probeStatus`, `probeReset` and `probeWaitHit` all begin with
`resolveProbeKey` followed by the `isLineKey` guard: on failure they
return a structured refusal (reason `line_key_required`) without issuing
any probe HTTP request or polling; on success they proceed to the
network part.  The effect structure is modelled by `ProbeGate`. -/

inductive ProbeGate where
  /-- The tool returned the structured refusal carrying this reason,
  without any HTTP request and without polling. -/
  | refuse (resolvedKey : String) (reason : String)
  /-- The tool proceeded to its HTTP/polling part with this resolved key. -/
  | proceed (resolvedKey : String)
  deriving DecidableEq, Repr

/-- Guard phase of `probeStatus`. -/
def probeStatusGate (key : String) (lineHint : Option Int) : ProbeGate :=
  let resolvedKey := resolveProbeKey key lineHint
  if !isLineKey resolvedKey then .refuse resolvedKey "line_key_required"
  else .proceed resolvedKey

/-- Guard phase of `probeReset`. -/
def probeResetGate (key : String) (lineHint : Option Int) : ProbeGate :=
  let resolvedKey := resolveProbeKey key lineHint
  if !isLineKey resolvedKey then .refuse resolvedKey "line_key_required"
  else .proceed resolvedKey

/-- Guard phase of `probeWaitHit`. -/
def probeWaitHitGate (key : String) (lineHint : Option Int) : ProbeGate :=
  let resolvedKey := resolveProbeKey key lineHint
  if !isLineKey resolvedKey then .refuse resolvedKey "line_key_required"
  else .proceed resolvedKey

/-! ## Verifier / wait-for-inline-hit (`probeWaitHit` poll loop)

The polling part of `probeWaitHit` is embedded over explicit traces:
an attempt holds its wall-clock start, the baseline snapshot, and the
sequence of status snapshots observed while polling (the poll loop runs
until its wall-clock budget expires, so the list length is exactly the
number of polls that fit the budget).  A snapshot's `hitCount` /
`lastHitEpochMs` are `none` when the JSON payload lacked a numeric
field, mirroring `typeof json?.hitCount === "number"` checks. -/

structure ProbeSnapshot where
  hitCount : Option Int
  lastHitEpochMs : Option Int
  deriving DecidableEq, Repr

structure WaitAttempt where
  waitStartEpochMs : Int
  baseline : ProbeSnapshot
  polls : List ProbeSnapshot
  deriving Repr

/-- The `staleCandidate` record built when a count delta is observed whose
timestamp is not inline to the current wait window. -/
structure StaleCandidate where
  hitCount : Int
  hitDelta : Int
  lastHitEpochMs : Option Int
  reason : String
  deriving DecidableEq, Repr

/-- Result object of `probeWaitHit` (the fields of `result` in the
structured content; `source` distinguishes the baseline short-circuit). -/
structure WaitHitResult where
  hit : Bool
  inline : Bool
  reason : Option String
  source : Option String
  hitCount : Option Int
  hitDelta : Option Int
  staleCandidate : Option StaleCandidate
  deriving DecidableEq, Repr

/-- One poll iteration step, lines 1177–1237 of the probe tools: compute
the delta against the captured baseline, declare an inline hit only when
`hitDelta > 0` and the snapshot timestamp is at least the inline-start
epoch, otherwise record a stale candidate when only the count moved. -/
def pollStep (baselineCount inlineStart : Int) (stale : Option StaleCandidate)
    (s : ProbeSnapshot) : Option (Int × Int) × Option StaleCandidate :=
  match s.hitCount with
  | none => (none, stale)
  | some hc =>
    let hitDelta := hc - baselineCount
    let isInlineByCount := hitDelta > 0
    let isInlineByTime :=
      match s.lastHitEpochMs with
      | none => false
      | some t => t ≥ inlineStart
    if isInlineByCount && isInlineByTime then (some (hc, hitDelta), stale)
    else if isInlineByCount && !isInlineByTime then
      (none, some ⟨hc, hitDelta, s.lastHitEpochMs,
        "hit_count_changed_but_not_inline_to_current_wait_window"⟩)
    else (none, stale)

/-- The poll loop of one attempt: returns the successful `(hitCount,
hitDelta)` pair of the first inline snapshot, or the stale-candidate
state when the budget runs out. -/
def pollLoop (baselineCount inlineStart : Int) (stale : Option StaleCandidate) :
    List ProbeSnapshot → Option (Int × Int) × Option StaleCandidate
  | [] => (none, stale)
  | s :: rest =>
    match pollStep baselineCount inlineStart stale s with
    | (some success, stale2) => (some success, stale2)
    | (none, stale2) => pollLoop baselineCount inlineStart stale2 rest

/-- The attempt loop of `probeWaitHit` (lines 1098–1277): per attempt,
capture `inlineStart` as the recorded last-reset epoch for the key or the
attempt's wall-clock start, short-circuit on a baseline that already
shows an inline hit, else poll; on full exhaustion return the timeout
result carrying any stale candidate seen. -/
def probeWaitHitLoop (lastResetEpoch : Option Int) (stale : Option StaleCandidate) :
    List WaitAttempt → WaitHitResult
  | [] =>
    { hit := false, inline := false, reason := some "timeout_no_inline_hit",
      source := none, hitCount := none, hitDelta := none,
      staleCandidate := stale }
  | a :: rest =>
    let inlineStart := lastResetEpoch.getD a.waitStartEpochMs
    let baselineHitCount := a.baseline.hitCount.getD 0
    let baselineLast := a.baseline.lastHitEpochMs.getD 0
    if baselineHitCount > 0 && baselineLast > 0 && baselineLast ≥ inlineStart then
      { hit := true, inline := true, reason := none,
        source := some "already_hit_since_inline_start",
        hitCount := some baselineHitCount, hitDelta := some 0,
        staleCandidate := none }
    else
      match pollLoop baselineHitCount inlineStart stale a.polls with
      | (some (hc, d), _) =>
        { hit := true, inline := true, reason := none, source := none,
          hitCount := some hc, hitDelta := some d, staleCandidate := none }
      | (none, stale2) => probeWaitHitLoop lastResetEpoch stale2 rest

/-- `probeWaitHit` after the strict-line gate, over an attempt trace. -/
def probeWaitHitModel (lastResetEpoch : Option Int)
    (attempts : List WaitAttempt) : WaitHitResult :=
  probeWaitHitLoop lastResetEpoch none attempts

/-! ## ProbeRuntime (java-agent)

`ProbeRuntime.java`: the four volatile configuration fields and the
decision entry points called from instrumented bytecode.  Nullable Java
`String` arguments are `Option String`; `configure` rebuilds the whole
configuration, so it is a pure function of its arguments. -/

structure ProbeRuntimeState where
  mode : String
  actuatorId : String
  actuateTargetKey : String
  actuateReturnBoolean : Bool
  deriving DecidableEq, Repr

/-- `ProbeRuntime.configure`: any mode other than `actuate` (after trim
and lower-case; null and blank included) normalises to `observe` and
clears the actuator id, target key and forced boolean. -/
def configureEffectiveMode (mode : Option String) : String :=
  match mode with
  | none => "observe"
  | some raw => if javaIsBlank raw then "observe" else lowerStr (javaTrim raw)

def configure (mode actuatorId actuateTargetKey : Option String)
    (actuateReturnBoolean : Bool) : ProbeRuntimeState :=
  let m := configureEffectiveMode mode
  if m ≠ "actuate" then
    { mode := "observe", actuatorId := "", actuateTargetKey := "",
      actuateReturnBoolean := false }
  else
    { mode := "actuate",
      actuatorId := (actuatorId.map javaTrim).getD "",
      actuateTargetKey := (actuateTargetKey.map javaTrim).getD "",
      actuateReturnBoolean := actuateReturnBoolean }

/-- `ProbeRuntime.shouldActuateBooleanReturn`. -/
def shouldActuateBooleanReturn (st : ProbeRuntimeState)
    (dottedClassName methodName : Option String) : Bool :=
  if st.mode ≠ "actuate" then false
  else if javaIsBlank st.actuateTargetKey then false
  else
    match dottedClassName, methodName with
    | some c, some m =>
      if javaIsBlank c || javaIsBlank m then false
      else st.actuateTargetKey = c ++ "#" ++ m
    | _, _ => false

/-- `ProbeRuntime.branchDecisionByClassMethodLine`: `-1` defer to the
original condition, `1` force taken, `0` force fallthrough. -/
def branchDecisionByClassMethodLine (st : ProbeRuntimeState)
    (dottedClassName methodName : Option String) (lineNumber : Int) : Int :=
  if st.mode ≠ "actuate" then -1
  else if javaIsBlank st.actuateTargetKey then -1
  else
    match dottedClassName, methodName with
    | some c, some m =>
      if javaIsBlank c || javaIsBlank m then -1
      else if lineNumber ≤ 0 then -1
      else
        let key := c ++ "#" ++ m ++ ":" ++ toString lineNumber
        if st.actuateTargetKey ≠ key then -1
        else if st.actuateReturnBoolean then 1 else 0
    | _, _ => -1

/-! ## AgentConfig (java-agent)

`AgentConfig.java`: startup-argument parsing with defaults drawn from
JVM system properties and environment variables, plus the include /
exclude class filter.  System properties and the environment are passed
in as lookup functions. -/

/-- `AgentConfig.normalizeMode`. -/
def normalizeMode (raw : Option String) : String :=
  match raw with
  | none => "observe"
  | some r => if lowerStr (javaTrim r) = "actuate" then "actuate" else "observe"

/-- `AgentConfig.normalizeActuatorId`. -/
def normalizeActuatorId (raw : Option String) : String :=
  (raw.map javaTrim).getD ""

/-- `AgentConfig.normalizeTargetKey`. -/
def normalizeTargetKey (raw : Option String) : String :=
  (raw.map javaTrim).getD ""

/-- `AgentConfig.parseBoolean`. -/
def parseBoolean (raw : Option String) (defaultValue : Bool) : Bool :=
  match raw with
  | none => defaultValue
  | some r =>
    let v := lowerStr (javaTrim r)
    if v = "true" || v = "1" || v = "yes" || v = "y" then true
    else if v = "false" || v = "0" || v = "no" || v = "n" then false
    else defaultValue

/-- `AgentConfig.parseCsv`. -/
def parseCsv (raw : Option String) : List String :=
  match raw with
  | none => []
  | some r =>
    if javaTrim r = "" then []
    else ((strSplitOnChar r ',').map javaTrim).filter (fun t => t ≠ "")

/-- A system-property / environment lookup: name ↦ value if set. -/
def EnvMap := String → Option String

/-- The prop-over-env default reader pattern used by `readDefaultMode`,
`readDefaultActuatorId`, … : first non-blank wins. -/
def firstNonBlank (fromProp fromEnv : Option String) : Option String :=
  match fromProp with
  | some p => if javaTrim p ≠ "" then some p else
      match fromEnv with
      | some e => if javaTrim e ≠ "" then some e else none
      | none => none
  | none =>
    match fromEnv with
    | some e => if javaTrim e ≠ "" then some e else none
    | none => none

/-- `AgentConfig.readDefaultMode` (system property wins over env var). -/
def readDefaultMode (props env : EnvMap) : String :=
  match firstNonBlank (props "mcp.probe.mode") (env "MCP_PROBE_MODE") with
  | some v => normalizeMode (some v)
  | none => "observe"

/-- `AgentConfig.readDefaultActuatorId`. -/
def readDefaultActuatorId (props env : EnvMap) : String :=
  match firstNonBlank (props "mcp.probe.actuator.id") (env "MCP_PROBE_ACTUATOR_ID") with
  | some v => normalizeActuatorId (some v)
  | none => ""

/-- `AgentConfig.readDefaultActuateTargetKey`. -/
def readDefaultActuateTargetKey (props env : EnvMap) : String :=
  match firstNonBlank (props "mcp.probe.actuate.target") (env "MCP_PROBE_ACTUATE_TARGET") with
  | some v => normalizeTargetKey (some v)
  | none => ""

/-- `AgentConfig.readDefaultActuateReturnBoolean`. -/
def readDefaultActuateReturnBoolean (props env : EnvMap) : Bool :=
  match firstNonBlank (props "mcp.probe.actuate.return.boolean")
      (env "MCP_PROBE_ACTUATE_RETURN_BOOLEAN") with
  | some v => parseBoolean (some v) false
  | none => false

/-- `AgentConfig.readDefaultInclude`; the startup-command inference that
runs when neither the property nor the env var is set is outside the
pure fragment and is passed in as `inferred`. -/
def readDefaultInclude (props env : EnvMap) (inferred : Option String) : String :=
  match firstNonBlank (props "mcp.probe.include") (env "MCP_PROBE_INCLUDE") with
  | some v => v
  | none =>
    match inferred with
    | some i => if javaTrim i ≠ "" then i else ""
    | none => ""

/-- `AgentConfig.readDefaultExclude`. -/
def readDefaultExclude (props env : EnvMap) : String :=
  match firstNonBlank (props "mcp.probe.exclude") (env "MCP_PROBE_EXCLUDE") with
  | some v => v
  | none => "com.nimbly.mcpjvmdebugger.agent.**"

/-- The mutable locals of `fromAgentArgs` while scanning `key=value`
pairs. -/
structure AgentSettings where
  host : String
  port : Int
  mode : String
  actuatorId : String
  actuateTargetKey : String
  actuateReturnBoolean : Bool
  includePatterns : List String
  excludePatterns : List String
  deriving DecidableEq, Repr

/-- Java `equalsIgnoreCase` over the ASCII range. -/
def eqIgnoreCase (a b : String) : Bool :=
  lowerStr a = lowerStr b

/-- Java `Integer.parseInt` restricted to what the agent needs:
an optional sign followed by one or more digits. -/
def javaParseInt (s : String) : Option Int :=
  match s.data with
  | [] => none
  | '-' :: ds =>
    if ds ≠ [] && ds.all Char.isDigit then
      some (-(ds.foldl (fun acc c => acc * 10 + (c.toNat - 48)) 0 : Int))
    else none
  | '+' :: ds =>
    if ds ≠ [] && ds.all Char.isDigit then
      some ((ds.foldl (fun acc c => acc * 10 + (c.toNat - 48)) 0 : Int))
    else none
  | ds =>
    if ds.all Char.isDigit then
      some ((ds.foldl (fun acc c => acc * 10 + (c.toNat - 48)) 0 : Int))
    else none

/-- One iteration of the `for (String p : parts)` loop in
`fromAgentArgs`: trim the part, split at the first `=`, and overwrite the
matching setting. -/
def applyAgentArg (s : AgentSettings) (p : String) : AgentSettings :=
  let t := javaTrim p
  if t = "" then s
  else
    match t.data.findIdx? (fun c => c = '=') with
    | none => s
    | some eq =>
      if eq = 0 || eq = t.data.length - 1 then s
      else
        let k := javaTrim ⟨t.data.take eq⟩
        let v := javaTrim ⟨t.data.drop (eq + 1)⟩
        if eqIgnoreCase k "host" then { s with host := v }
        else if eqIgnoreCase k "port" then
          match javaParseInt v with
          | some n => { s with port := n }
          | none => s
        else if eqIgnoreCase k "mode" || eqIgnoreCase k "probeMode" then
          { s with mode := normalizeMode (some v) }
        else if eqIgnoreCase k "actuatorId" || eqIgnoreCase k "actuator" then
          { s with actuatorId := normalizeActuatorId (some v) }
        else if eqIgnoreCase k "actuateTarget" || eqIgnoreCase k "actuateTargetKey"
            || eqIgnoreCase k "targetKey" then
          { s with actuateTargetKey := normalizeTargetKey (some v) }
        else if eqIgnoreCase k "actuateReturnBool" || eqIgnoreCase k "actuateReturnBoolean"
            || eqIgnoreCase k "returnBoolean" then
          { s with actuateReturnBoolean := parseBoolean (some v) false }
        else if eqIgnoreCase k "include" || eqIgnoreCase k "includes"
            || eqIgnoreCase k "includePackages" then
          { s with includePatterns := parseCsv (some v) }
        else if eqIgnoreCase k "exclude" || eqIgnoreCase k "excludes"
            || eqIgnoreCase k "excludePackages" then
          { s with excludePatterns := parseCsv (some v) }
        else s

/-- `AgentConfig.fromAgentArgs`: defaults from system properties and the
environment, then the agent-args pairs applied on top, then final
normalisation.  `inferredInclude` stands for the startup-command
inference used only when no include was configured. -/
def fromAgentArgs (args : Option String) (props env : EnvMap)
    (inferredInclude : Option String) : AgentSettings :=
  let init : AgentSettings :=
    { host := "127.0.0.1", port := 9191,
      mode := readDefaultMode props env,
      actuatorId := readDefaultActuatorId props env,
      actuateTargetKey := readDefaultActuateTargetKey props env,
      actuateReturnBoolean := readDefaultActuateReturnBoolean props env,
      includePatterns := parseCsv (some (readDefaultInclude props env inferredInclude)),
      excludePatterns := parseCsv (some (readDefaultExclude props env)) }
  let afterArgs :=
    match args with
    | none => init
    | some a =>
      if javaTrim a = "" then init
      else (strSplitOnChar a ';').foldl applyAgentArg init
  let port := if afterArgs.port ≤ 0 then 9191 else afterArgs.port
  let mode := normalizeMode (some afterArgs.mode)
  let actuatorId := normalizeActuatorId (some afterArgs.actuatorId)
  let actuateTargetKey := normalizeTargetKey (some afterArgs.actuateTargetKey)
  { afterArgs with
    port := port, mode := mode,
    actuatorId := if mode ≠ "actuate" then "" else actuatorId,
    actuateTargetKey := if mode ≠ "actuate" then "" else actuateTargetKey }

/-! ## Class-filter pattern compilation and matching

`AgentConfig.toRegex` compiles a glob / package prefix to a Java regex
string built from `^`, `$`, escaped literals, `[^.]*` (single `*`) and
`.*` (double `*`).  `rxMatch` interprets exactly this regex fragment
with `Pattern.matches` (full-string) semantics. -/

/-- Characters escaped by `toRegex` (the Java literal
`"\\.[]{}()+-^$|?"`). -/
def regexSpecialChars : List Char :=
  ['\\', '.', '[', ']', '\x7b', '\x7d', '(', ')', '+', '-', '^', '$', '|', '?']

/-- Body of the compile loop of `toRegex` over the glob characters. -/
def toRegexCore : List Char → List Char
  | [] => []
  | '*' :: '*' :: rest => '.' :: '*' :: toRegexCore rest
  | '*' :: rest => '[' :: '^' :: '.' :: ']' :: '*' :: toRegexCore rest
  | c :: rest =>
    if c ∈ regexSpecialChars then '\\' :: c :: toRegexCore rest
    else c :: toRegexCore rest

/-- `AgentConfig.toRegex`: wildcard-free patterns are treated as package
prefixes (append `.**`, or `**` after a trailing dot). -/
def toRegex (globOrPrefix : String) : String :=
  let hasWildcard := globOrPrefix.data.contains '*'
  let g :=
    if hasWildcard then globOrPrefix
    else if strEndsWith globOrPrefix "." then globOrPrefix ++ "**"
    else globOrPrefix ++ ".**"
  "^" ++ (⟨toRegexCore g.data⟩ : String) ++ "$"

/-- Tokens of the regex fragment emitted by `toRegex`. -/
inductive RegexTok where
  | lit (c : Char)
  | anyStar
  | segStar
  deriving DecidableEq, Repr

/-- Parse the body (between `^` and `$`) of a `toRegex` output. -/
def parseRegexBody : List Char → Option (List RegexTok)
  | [] => some []
  | '[' :: '^' :: '.' :: ']' :: '*' :: rest =>
    (parseRegexBody rest).map (RegexTok.segStar :: ·)
  | '.' :: '*' :: rest => (parseRegexBody rest).map (RegexTok.anyStar :: ·)
  | '\\' :: c :: rest => (parseRegexBody rest).map (RegexTok.lit c :: ·)
  | '.' :: _ => none
  | c :: rest =>
    if c ∈ regexSpecialChars || c = '*' then none
    else (parseRegexBody rest).map (RegexTok.lit c :: ·)

/-- Backtracking for a star token: try the continuation at every
suffix; `dotOk = false` (the `[^.]*` token) forbids consuming dots. -/
def starMatch (cont : List Char → Bool) (dotOk : Bool) : List Char → Bool
  | [] => cont []
  | x :: xs => cont (x :: xs) || ((dotOk || x ≠ '.') && starMatch cont dotOk xs)

/-- Backtracking matcher for the token list (full-string semantics:
`.*` matches any run including dots, `[^.]*` any dot-free run). -/
def matchToks : List RegexTok → List Char → Bool
  | [], xs => xs.isEmpty
  | .lit c :: ts, xs =>
    match xs with
    | [] => false
    | x :: tl => x = c && matchToks ts tl
  | .anyStar :: ts, xs => starMatch (matchToks ts) true xs
  | .segStar :: ts, xs => starMatch (matchToks ts) false xs

/-- `Pattern.compile(regex).matcher(value).matches()` for the fragment
produced by `toRegex`: strip the anchors, parse, match the whole value. -/
def rxMatch (regex : String) (value : String) : Bool :=
  match regex.data with
  | '^' :: body =>
    match body.reverse with
    | '$' :: rbody =>
      match parseRegexBody rbody.reverse with
      | some toks => matchToks toks value.data
      | none => false
    | _ => false
  | _ => false

/-- `AgentConfig.compilePatterns`: trim, drop blanks, compile. -/
def compilePatterns (patterns : List String) : List String :=
  (patterns.map javaTrim).filter (fun t => t ≠ "") |>.map toRegex

/-- `AgentConfig.matchesAny`. -/
def matchesAny (compiled : List String) (value : String) : Bool :=
  compiled.any (fun p => rxMatch p value)

/-- `AgentConfig.shouldInstrument`: non-empty name, matched by some
include and by no exclude. -/
def shouldInstrument (includePatterns excludePatterns : List String)
    (dottedClassName : String) : Bool :=
  if dottedClassName = "" then false
  else if !matchesAny (compilePatterns includePatterns) dottedClassName then false
  else !matchesAny (compilePatterns excludePatterns) dottedClassName

/-! ## Target inference (`scoreCandidate`, `inferTargets`)

The planner ranks indexed method records against the textual hints.
`inferTargets` is embedded over its pure part: the index that
`buildJavaIndex` would return is a parameter. -/

/-- `normalize` from target inference: `(s ?? "").trim().toLowerCase()`. -/
def normalizeHint (s : Option String) : String :=
  lowerStr (javaTrim (s.getD ""))

/-- `path.basename(filePath, ".java").toLowerCase()`. -/
def fileBaseLower (filePath : String) : String :=
  let base := ((strSplitOnChar filePath '/').getLastD filePath)
  let stripped :=
    if strEndsWith base ".java" && base ≠ ".java" then
      ⟨base.data.take (base.data.length - 5)⟩
    else base
  lowerStr stripped

/-- The `classMatched` flag computed by `scoreCandidate` (exact or
substring match against the class name or the file base name). -/
def classMatchedFlag (classHint : Option String) (filePath : String)
    (className : Option String) : Bool :=
  let ch := normalizeHint classHint
  let cn := normalizeHint className
  ch ≠ "" && (cn = ch || strIncludes cn ch || strIncludes (fileBaseLower filePath) ch)

/-- The `methodMatched` flag computed by `scoreCandidate`. -/
def methodMatchedFlag (methodHint : Option String) (methodName : Option String) : Bool :=
  let mh := normalizeHint methodHint
  let mn := normalizeHint methodName
  mh ≠ "" && (mn = mh || strIncludes mn mh)

structure ScoreArgs where
  classHint : Option String
  methodHint : Option String
  lineHint : Option Int
  filePath : String
  className : Option String
  methodName : Option String
  methodLine : Option Int

structure ScoreOut where
  score : Int
  reasons : List String
  deriving DecidableEq, Repr

/-- `scoreCandidate`: hint scores plus line-distance bonus, with the
guardrail that textual hints that both fail yield no score at all. -/
def scoreCandidate (a : ScoreArgs) : ScoreOut :=
  let ch := normalizeHint a.classHint
  let mh := normalizeHint a.methodHint
  let cn := normalizeHint a.className
  let mn := normalizeHint a.methodName
  let classMatched := classMatchedFlag a.classHint a.filePath a.className
  let methodMatched := methodMatchedFlag a.methodHint a.methodName
  let classPart : Int × List String :=
    if ch ≠ "" then
      if cn = ch then (45, ["class exact match"])
      else if strIncludes cn ch || strIncludes (fileBaseLower a.filePath) ch then
        (25, ["class partial match"])
      else (0, [])
    else (0, [])
  let methodPart : Int × List String :=
    if mh ≠ "" then
      if mn = mh then (40, ["method exact match"])
      else if strIncludes mn mh then (22, ["method partial match"])
      else (0, [])
    else (0, [])
  if (ch ≠ "" || mh ≠ "") && !classMatched && !methodMatched then
    { score := 0, reasons := [] }
  else
    let linePart : Int × List String :=
      match a.lineHint, a.methodLine with
      | some hint, some start =>
        let d := (hint - start).natAbs
        if d = 0 then (25, ["line exact match"])
        else if d ≤ 3 then (16, ["line near match"])
        else if d ≤ 12 then (8, ["line loose match"])
        else (0, [])
      | _, _ => (0, [])
    { score := classPart.1 + methodPart.1 + linePart.1,
      reasons := classPart.2 ++ methodPart.2 ++ linePart.2 }

structure JavaMethodRecord where
  name : String
  line : Int
  signature : String
  deriving DecidableEq, Repr

structure JavaIndexEntry where
  fileAbs : String
  packageName : Option String
  className : Option String
  methods : List JavaMethodRecord
  deriving DecidableEq, Repr

structure InferredTarget where
  file : String
  className : Option String
  methodName : Option String
  line : Option Int
  signature : Option String
  returnsBoolean : Option Bool
  fqcn : Option String
  key : Option String
  confidence : Int
  reasons : List String
  deriving DecidableEq, Repr

/-- JS `\w`. -/
def isJsWordChar (c : Char) : Bool :=
  c.isAlphanum || c = '_'

/-- JS `\s` over the ASCII range. -/
def isJsSpace (c : Char) : Bool :=
  c = ' ' || c = '\t' || c = '\n' || c = '\r' || c = '\x0c' || c = '\x0b'

/-- After one of the boolean return types: `\s+ name \s* (`. -/
def booleanTypeTail (name : List Char) (rest : List Char) : Bool :=
  let ws := rest.takeWhile isJsSpace
  if ws.isEmpty then false
  else
    let r2 := rest.drop ws.length
    if name.isPrefixOf r2 then
      let r3 := (r2.drop name.length).dropWhile isJsSpace
      match r3 with
      | '(' :: _ => true
      | _ => false
    else false

/-- Try the three return-type alternatives at the current position. -/
def booleanTypeHere (name s : List Char) : Bool :=
  (("boolean".data).isPrefixOf s && booleanTypeTail name (s.drop 7)) ||
  (("Boolean".data).isPrefixOf s && booleanTypeTail name (s.drop 7)) ||
  (("java.lang.Boolean".data).isPrefixOf s && booleanTypeTail name (s.drop 17))

/-- Scan for `\b(?:boolean|Boolean|java\.lang\.Boolean)\s+name\s*\(`;
`wordBefore` tracks whether the previous char was a word char (so the
`\b` boundary holds exactly when it is false). -/
def scanReturnsBoolean (name : List Char) : Bool → List Char → Bool
  | _, [] => false
  | wordBefore, c :: tl =>
    (!wordBefore && booleanTypeHere name (c :: tl)) ||
      scanReturnsBoolean name (isJsWordChar c) tl

/-- `inferReturnsBoolean` from target inference. -/
def inferReturnsBoolean (signature methodName : String) : Bool :=
  scanReturnsBoolean methodName.data false signature.data

/-- The JS sort comparator of `inferTargets` as a `≤`-style relation:
higher confidence first, ties broken by smaller line (absent lines sort
last). -/
def inferredTargetLe (a b : InferredTarget) : Bool :=
  if b.confidence ≠ a.confidence then b.confidence - a.confidence ≤ 0
  else (a.line.getD 9007199254740991) - (b.line.getD 9007199254740991) ≤ 0

/-- The candidate `inferTargets` builds for one method record, or `none`
when its score is not positive. -/
def candidateFor (classHint methodHint : Option String) (lineHint : Option Int)
    (f : JavaIndexEntry) (m : JavaMethodRecord) : Option InferredTarget :=
  let scored := scoreCandidate
    { classHint := classHint.bind (fun c => if c = "" then none else some c),
      methodHint := methodHint.bind (fun c => if c = "" then none else some c),
      lineHint := lineHint,
      filePath := f.fileAbs,
      className := f.className,
      methodName := some m.name,
      methodLine := some m.line }
  if scored.score ≤ 0 then none
  else
    let fqcn :=
      match f.packageName, f.className with
      | some p, some c => some (p ++ "." ++ c)
      | _, _ => none
    some
      { file := f.fileAbs,
        className := f.className,
        methodName := some m.name,
        line := some m.line,
        signature := some m.signature,
        returnsBoolean := some (inferReturnsBoolean m.signature m.name),
        fqcn := fqcn,
        key := fqcn.map (fun q => q ++ "#" ++ m.name),
        confidence := min 100 scored.score,
        reasons := scored.reasons }

/-- `inferTargets` over a pre-built index: score, filter, sort, cap. -/
def inferTargetsFromIndex (index : List JavaIndexEntry)
    (classHint methodHint : Option String) (lineHint : Option Int)
    (maxCandidates : Option Int) : Int × List InferredTarget :=
  let out := index.flatMap (fun f =>
    f.methods.filterMap (fun m => candidateFor classHint methodHint lineHint f m))
  let sorted := out.mergeSort inferredTargetLe
  let cap := max 1 (min (maxCandidates.getD 8) 20)
  (index.length, sorted.take cap.toNat)

/-! ## Request-candidate inference (`buildRecipeCandidate`)

The emission logic of `buildRecipeCandidate` is embedded with the
results of its text analyses as parameters: `controllerMethodParams`
(`parseControllerMethodParams`), `legacyRequestParams`
(`parseRequestParamsFromController`), `endpointMapping`
(`inferEndpointMappingForCall` / `inferEndpointMappingFromInterface`),
`classBasePath` (`inferClassBasePath`), and `openapiHint` (what
`findOpenApiPathHint` would return for the request parameter).  Call
context (`argNames`, `contextLines`) is passed as data. -/

structure RecipeCandidate where
  method : String
  path : String
  queryTemplate : String
  fullUrlHint : String
  bodyTemplate : Option String
  rationale : List String
  deriving DecidableEq, Repr

structure ControllerParam where
  name : String
  requestName : String
  javaType : Option String
  source : String
  deriving DecidableEq, Repr

structure LegacyParam where
  name : String
  requestName : String
  javaType : Option String
  deriving DecidableEq, Repr

/-- `sampleValueForType`. -/
def sampleValueForType (javaType : Option String) : String :=
  let t := lowerStr (javaType.getD "")
  if strIncludes t "double" || strIncludes t "float" || strIncludes t "bigdecimal" then "1000"
  else if strIncludes t "int" || strIncludes t "long" then "1"
  else if strIncludes t "bool" then "true"
  else "value"

/-- `sampleBodyForType`. -/
def sampleBodyForType (javaType : Option String) : String :=
  let t := lowerStr (javaType.getD "")
  if t = "" then "\x7b\"example\":\"value\"\x7d"
  else if strIncludes t "jsonnode" || strIncludes t "objectnode" || strIncludes t "map" then
    "\x7b\"Notification_Email_Preferences\":\x7b\"Email_Notifications\":true\x7d\x7d"
  else if strIncludes t "string" then "\"value\""
  else if strIncludes t "int" || strIncludes t "long" || strIncludes t "double"
      || strIncludes t "float" then "1"
  else if strIncludes t "bool" then "true"
  else "\x7b\"example\":\"value\"\x7d"

/-- Match `if\s*\(` at the start of the remaining characters. -/
def ifParenAt (s : List Char) : Bool :=
  if ("if".data).isPrefixOf s then
    match (s.drop 2).dropWhile isJsSpace with
    | '(' :: _ => true
    | _ => false
  else false

/-- `/^if\s*\(|^else\s+if\s*\(/` on a trimmed line. -/
def isIfConditionLine (l : String) : Bool :=
  ifParenAt l.data ||
    (("else".data).isPrefixOf l.data &&
      (let rest := l.data.drop 4
       let ws := rest.takeWhile isJsSpace
       !ws.isEmpty && ifParenAt (rest.drop ws.length)))

/-- `inferBranchCondition` from recipe.util: the last trimmed context
line that looks like an `if (…)` / `else if (…)`. -/
def inferBranchCondition (contextLines : List String) : Option String :=
  let candidates := (contextLines.map javaTrim).filter isIfConditionLine
  candidates.getLast?

/-- Match `else\s+if\s*\(\s*maxPrice\s*!=\s*null` at this position. -/
def elseIfMaxPriceAt (s : List Char) : Bool :=
  if ("else".data).isPrefixOf s then
    let r1 := s.drop 4
    let ws1 := r1.takeWhile isJsSpace
    if ws1.isEmpty then false
    else
      let r2 := r1.drop ws1.length
      if ("if".data).isPrefixOf r2 then
        match (r2.drop 2).dropWhile isJsSpace with
        | '(' :: r3 =>
          let r4 := r3.dropWhile isJsSpace
          if ("maxPrice".data).isPrefixOf r4 then
            let r5 := (r4.drop 8).dropWhile isJsSpace
            if ("!=".data).isPrefixOf r5 then
              ("null".data).isPrefixOf ((r5.drop 2).dropWhile isJsSpace)
            else false
          else false
        | _ => false
      else false
  else false

/-- Unanchored search for `elseIfMaxPriceAt`. -/
def hasElseIfMaxPrice : List Char → Bool
  | [] => false
  | c :: tl => elseIfMaxPriceAt (c :: tl) || hasElseIfMaxPrice tl

/-- The first call-site argument that names a controller method
parameter (`mappedParam` in `buildRecipeCandidate`). -/
def candidateMappedParam (controllerMethodParams : List ControllerParam)
    (argNames : List String) : Option ControllerParam :=
  (argNames.map (fun argName =>
    controllerMethodParams.find? (fun p => p.name = argName))).findSome? id

/-- `requestParamName` in `buildRecipeCandidate`: the mapped query
parameter's request name, else the first legacy `@RequestParam` hit. -/
def candidateRequestParamName (controllerMethodParams : List ControllerParam)
    (legacyRequestParams : List LegacyParam) (argNames : List String) :
    Option String :=
  let mappedParam := candidateMappedParam controllerMethodParams argNames
  if (mappedParam.map (·.source)) = some "query" then
    mappedParam.map (·.requestName)
  else
    (argNames.map (fun argName =>
      (legacyRequestParams.find? (fun p => p.name = argName)).map
        (·.requestName))).findSome? id

/-- The OpenAPI path hint is consulted only when a request parameter
name exists (`openapiPath` in `buildRecipeCandidate`). -/
def candidateOpenapiPath (controllerMethodParams : List ControllerParam)
    (legacyRequestParams : List LegacyParam) (argNames : List String)
    (openapiHint : Option String) : Option String :=
  match candidateRequestParamName controllerMethodParams legacyRequestParams argNames with
  | some _ => openapiHint
  | none => none

/-- The `pathHint` value at the no-route guard: the endpoint (method
mapping path, else class base path) after path-parameter substitution,
overridden by the OpenAPI path when no method mapping exists. -/
def candidatePathHint (controllerMethodParams : List ControllerParam)
    (legacyRequestParams : List LegacyParam) (argNames : List String)
    (endpointMapping : Option (String × String)) (classBasePath : String)
    (openapiHint : Option String) : String :=
  let endpoint := (endpointMapping.map Prod.snd).getD classBasePath
  let mappedParam := candidateMappedParam controllerMethodParams argNames
  let pathHint0 :=
    match mappedParam with
    | some mp =>
      if mp.source = "path" then
        let requestName := if mp.requestName ≠ "" then mp.requestName else mp.name
        let pathParamValue := sampleValueForType mp.javaType
        let withRequestName :=
          strReplace endpoint ("\x7b" ++ requestName ++ "\x7d") pathParamValue
        strReplace withRequestName ("\x7b" ++ mp.name ++ "\x7d") pathParamValue
      else endpoint
    | none => endpoint
  if endpointMapping.isNone then
    match candidateOpenapiPath controllerMethodParams legacyRequestParams
        argNames openapiHint with
    | some p => p
    | none => pathHint0
  else pathHint0

/-- `routeResolved` in `buildRecipeCandidate`: a method/interface
mapping exists or the OpenAPI lookup produced a path. -/
def candidateRouteResolved (controllerMethodParams : List ControllerParam)
    (legacyRequestParams : List LegacyParam) (argNames : List String)
    (endpointMapping : Option (String × String)) (openapiHint : Option String) :
    Bool :=
  endpointMapping.isSome ||
    (candidateOpenapiPath controllerMethodParams legacyRequestParams argNames
      openapiHint).isSome

/-- The pure core of `buildRecipeCandidate` (lines 568–658): decide the
endpoint, assemble query/path/body, and apply the no-route guard that
suppresses only unresolved `GET /` candidates. -/
def buildRecipeCandidateCore
    (controllerMethodParams : List ControllerParam)
    (legacyRequestParams : List LegacyParam)
    (argNames : List String) (contextLines : List String)
    (methodNameForRationale : String)
    (endpointMapping : Option (String × String))
    (classBasePath : String)
    (openapiHint : Option String) :
    Option RecipeCandidate × Option String :=
  let mappedParam := candidateMappedParam controllerMethodParams argNames
  let requestParamName :=
    candidateRequestParamName controllerMethodParams legacyRequestParams argNames
  let requestParamType : Option String :=
    match mappedParam.bind (·.javaType) with
    | some t => some t
    | none =>
      (argNames.map (fun argName =>
        (legacyRequestParams.find? (fun p => p.name = argName)).bind (·.javaType))).findSome?
        (fun o => o.bind (fun t => if t = "" then none else some t))
  let queryParts0 : List String :=
    match requestParamName with
    | some rp =>
      if (mappedParam.map (·.source)) ≠ some "body" then
        [rp ++ "=" ++ sampleValueForType requestParamType]
      else []
    | none => []
  let queryParts1 := queryParts0 ++
    (if controllerMethodParams.any (fun p => p.name = "page" && p.source = "query") then
      ["page=0"] else [])
  let queryParts2 := queryParts1 ++
    (if controllerMethodParams.any (fun p => p.name = "size" && p.source = "query") then
      ["size=1"] else [])
  let ctx := String.intercalate "\n" contextLines
  let queryParts := queryParts2 ++
    (if hasElseIfMaxPrice ctx.data && strIncludes ctx "minPrice" then
      ["minPrice=<omit>"] else [])
  let branchCondition := inferBranchCondition contextLines
  let pathHint := candidatePathHint controllerMethodParams legacyRequestParams
    argNames endpointMapping classBasePath openapiHint
  let method := (endpointMapping.map Prod.fst).getD "GET"
  let routeResolved := candidateRouteResolved controllerMethodParams
    legacyRequestParams argNames endpointMapping openapiHint
  if !routeResolved && pathHint = "/" then (none, branchCondition)
  else
    let filteredQuery := queryParts.filter (fun q => !strEndsWith q "<omit>")
    let fullUrlHint :=
      if filteredQuery.length > 0 then
        pathHint ++ "?" ++ String.intercalate "&" filteredQuery
      else pathHint
    let bodyParam :=
      match mappedParam with
      | some mp => if mp.source = "body" then some mp
          else controllerMethodParams.find? (fun p => p.source = "body")
      | none => controllerMethodParams.find? (fun p => p.source = "body")
    let recipe : RecipeCandidate :=
      { method := method,
        path := pathHint,
        queryTemplate := String.intercalate "&" queryParts,
        fullUrlHint := fullUrlHint,
        bodyTemplate := bodyParam.map (fun bp => sampleBodyForType bp.javaType),
        rationale :=
          ["Controller call matched: " ++ methodNameForRationale,
           "Inferred endpoint path: " ++ pathHint,
           "Inferred request param: " ++
             (match requestParamName with
              | some rp => rp
              | none =>
                match bodyParam with
                | some bp => bp.name ++ " (request body)"
                | none => "(unknown)")] ++
          (match branchCondition with
           | some bc => ["Branch condition context: " ++ bc]
           | none => []) }
    (some recipe, branchCondition)

/-! ## Auth resolution (`resolveAuthForRecipe`)

The file reads (`readOpenApiHints`, `controllerMayRequireAuth`) are
parameters; the combination logic of lines 189–294 is embedded in
full, including the Basic header construction. -/

structure AuthLoginHint where
  method : String
  path : String
  bodyTemplate : String
  deriving DecidableEq, Repr

inductive AuthRequired where
  | yes
  | no
  | unknown
  deriving DecidableEq, Repr

structure AuthResolution where
  required : AuthRequired
  status : String
  strategy : String
  nextAction : String
  notes : List String
  requestHeaders : Option (List (String × String)) := none
  missing : Option (List String) := none
  source : Option String := none
  loginHint : Option AuthLoginHint := none
  deriving DecidableEq, Repr

structure SecretValue where
  value : String
  source : String
  deriving DecidableEq, Repr

/-- `firstProvided`. -/
def firstProvided (value : Option String) (source : String) : Option SecretValue :=
  value.bind (fun v =>
    let trimmed := javaTrim v
    if trimmed = "" then none else some ⟨trimmed, source⟩)

def base64Table : List Char :=
  "ABCDEFGHIJKLMNOPQRSTUVWXYZabcdefghijklmnopqrstuvwxyz0123456789+/".data

def b64Char (n : Nat) : Char :=
  base64Table.getD n 'A'

/-- Standard base64 over byte triples with `=` padding. -/
def base64Chunks : List Nat → List Char
  | [] => []
  | [a] =>
    let n := a * 65536
    [b64Char (n / 262144), b64Char (n / 4096 % 64), '=', '=']
  | [a, b] =>
    let n := a * 65536 + b * 256
    [b64Char (n / 262144), b64Char (n / 4096 % 64), b64Char (n / 64 % 64), '=']
  | a :: b :: c :: rest =>
    let n := a * 65536 + b * 256 + c
    [b64Char (n / 262144), b64Char (n / 4096 % 64), b64Char (n / 64 % 64),
      b64Char (n % 64)] ++ base64Chunks rest

/-- `Buffer.from(s).toString("base64")`. -/
def base64Encode (s : String) : String :=
  ⟨base64Chunks (s.toUTF8.toList.map (fun b => b.toNat))⟩

/-- What `readOpenApiHints` produces from the OpenAPI file (or its
no-file fallback `{required:false, strategy:"unknown"}`). -/
structure OpenApiAuthHints where
  required : Bool
  strategy : String
  notes : List String
  loginHint : Option AuthLoginHint := none
  deriving DecidableEq, Repr

/-- `resolveAuthForRecipe` with its two file analyses as parameters. -/
def resolveAuthForRecipe (openapi : OpenApiAuthHints) (controllerSecure : Bool)
    (authToken authUsername authPassword : Option String)
    (loginDiscoveryEnabled : Bool) : AuthResolution :=
  let notes := openapi.notes ++
    (if controllerSecure then ["Controller has security annotations."] else []) ++
    ["Automatic credential discovery is disabled; credentials must be provided explicitly."]
  let required := openapi.required || controllerSecure
  let strategy0 := if required then openapi.strategy else "none"
  let strategy := if required && strategy0 = "none" then "unknown" else strategy0
  if !required then
    { required := .no, status := "not_required", strategy := "none",
      nextAction := "No auth requirement inferred for this route.", notes := notes }
  else
    let token := firstProvided authToken "input.authToken"
    let username := firstProvided authUsername "input.authUsername"
    let password := firstProvided authPassword "input.authPassword"
    let loginHint := if loginDiscoveryEnabled then openapi.loginHint else none
    if strategy = "basic" then
      match username, password with
      | some u, some p =>
        { required := .yes, status := "auto_resolved", strategy := "basic",
          source := some (u.source ++ ", " ++ p.source),
          nextAction := "Use generated Basic Authorization header in the request.",
          notes := notes,
          requestHeaders := some
            [("Authorization", "Basic " ++ base64Encode (u.value ++ ":" ++ p.value))] }
      | u, p =>
        { required := .yes, status := "needs_user_input", strategy := "basic",
          missing := some
            ((if u.isNone then ["authUsername"] else []) ++
             (if p.isNone then ["authPassword"] else [])),
          nextAction := "Ask user for authUsername/authPassword and rerun recipe generation.",
          notes := notes, loginHint := loginHint }
    else
      match token with
      | some t =>
        let chosenStrategy := if strategy = "cookie" then "cookie" else "bearer"
        { required := .yes, status := "auto_resolved", strategy := chosenStrategy,
          source := some t.source,
          nextAction :=
            if chosenStrategy = "cookie" then
              "Use the provided token as cookie/session credential."
            else "Use the provided Bearer token in Authorization header.",
          notes := notes,
          requestHeaders := some
            (if chosenStrategy = "cookie" then [("Cookie", "session=" ++ t.value)]
             else [("Authorization", "Bearer " ++ t.value)]) }
      | none =>
        { required := .yes, status := "needs_user_input",
          strategy := if strategy = "unknown" then "bearer" else strategy,
          missing := some
            (["authToken"] ++
             (if username.isNone then ["authUsername"] else []) ++
             (if password.isNone then ["authPassword"] else [])),
          nextAction :=
            "Ask user for authToken (Bearer). If unavailable, ask for authUsername/authPassword and obtain token first.",
          notes := notes, loginHint := loginHint }

/-- The literal fallback resolution that `generateRecipe` builds when
no controller mapping was matched. -/
def generateRecipeNoControllerAuth : AuthResolution :=
  { required := .unknown, status := "needs_user_input", strategy := "unknown",
    missing := some ["authToken"],
    nextAction :=
      "Entrypoint/auth requirements could not be inferred. Ask user for authToken (Bearer) or confirm no auth is required.",
    notes :=
      ["No controller->method mapping was inferred, so route-level auth inference is unavailable.",
       "Automatic credential discovery is disabled; credentials must be provided explicitly."] }

/-- The literal resolution `generateRecipe` uses when no target method
candidate was inferred. -/
def generateRecipeUnresolvedAuth : AuthResolution :=
  { required := .unknown, status := "unknown", strategy := "unknown",
    nextAction := "No target inferred; cannot resolve auth strategy yet.",
    notes := ["No method candidate matched current hints."] }

/-! ## Execution-plan builder (`buildRecipeExecutionPlan`) -/

structure RecipeExecutionStep where
  phase : String
  title : String
  instruction : String
  deriving DecidableEq, Repr

structure RecipeExecutionPlan where
  mode : String
  modeReason : String
  naturalSteps : List RecipeExecutionStep
  actuatedSteps : List RecipeExecutionStep
  deriving DecidableEq, Repr

/-- `redactSecret`. -/
def redactSecret (value : String) : String :=
  let v := javaTrim value
  if v = "" then "***"
  else if v.data.length ≤ 8 then "***"
  else ⟨v.data.take 4⟩ ++ "..." ++ ⟨v.data.drop (v.data.length - 2)⟩

/-- `formatAuthHeaderHint`. -/
def formatAuthHeaderHint (auth : AuthResolution) : String :=
  match auth.requestHeaders with
  | none =>
    if auth.status = "needs_user_input" then "Auth unresolved. " ++ auth.nextAction
    else "No auth headers required."
  | some headers =>
    String.intercalate "; "
      (headers.map (fun kv => kv.1 ++ ": " ++ redactSecret kv.2))

/-- `buildLineHitInstruction`. -/
def buildLineHitInstruction (lineHint : Option Int) (targetFile : Option String)
    (inferredTargetKey : Option String) : String :=
  match lineHint with
  | none =>
    "Line hint is required for strict line verification. Return report with status=line_key_required."
  | some h =>
    let breakpointHint :=
      match targetFile with
      | some f => "Set/confirm a JVM breakpoint at " ++ f ++ ":" ++ toString h ++ "."
      | none => "Set/confirm a JVM breakpoint at target line " ++ toString h ++ "."
    match inferredTargetKey with
    | some k =>
      breakpointHint ++ " Success criterion is line_hit via probe_status(key=" ++
        k ++ ":" ++ toString h ++ ") with hitCount increased after the request."
    | none =>
      breakpointHint ++
        " Line key could not be derived for strict line verification. Return report with status=line_key_required."

/-- `buildRecipeExecutionPlan`: the deterministic state machine over
requested mode, inferred key, line hint, request candidate, and auth. -/
def buildRecipeExecutionPlan (requestedMode : Option String)
    (inferredTargetKey targetFile : Option String) (lineHint : Option Int)
    (requestCandidate : Option RecipeCandidate) (auth : AuthResolution) :
    RecipeExecutionPlan :=
  let mode := requestedMode.getD "natural"
  let key := inferredTargetKey.getD "(not inferred)"
  if mode = "natural" then
    match requestCandidate with
    | none =>
      let steps :=
        (if auth.status = "needs_user_input" then
          [({ phase := "prepare", title := "Resolve authentication",
              instruction := auth.nextAction } : RecipeExecutionStep)]
         else []) ++
        [{ phase := "prepare", title := "Natural path unavailable",
           instruction :=
             "Controller/request mapping could not be inferred for this target. Natural reproduction is currently unreachable." },
         { phase := "verify", title := "Report limitation",
           instruction :=
             "Return REPORT with status=unreachable_natural and ask whether to proceed with explicit actuated mode." }]
      { mode := "natural",
        modeReason :=
          "Natural HTTP reproduction path could not be inferred from controller/OpenAPI mapping.",
        naturalSteps := steps, actuatedSteps := [] }
    | some request =>
      let steps :=
        (if auth.status = "needs_user_input" then
          [({ phase := "prepare", title := "Resolve authentication",
              instruction := auth.nextAction } : RecipeExecutionStep)]
         else []) ++
        [{ phase := "prepare", title := "Reset probe baseline",
           instruction :=
             if key = "(not inferred)" then
               "Probe key was not inferred; skip reset and rely on application-side logs."
             else
               match lineHint with
               | some h =>
                 "Call probe_reset with key=" ++ key ++ ":" ++ toString h ++
                   " before sending the request."
               | none =>
                 "Line hint is required for strict line verification; do not run probe reset/status with method-only key." },
         { phase := "execute", title := "Execute natural request",
           instruction :=
             request.method ++ " " ++ request.fullUrlHint ++ " (headers: " ++
               formatAuthHeaderHint auth ++ ")" ++
               (match request.bodyTemplate with
                | some b => " body: " ++ b
                | none => "") },
         { phase := "verify",
           title :=
             if lineHint.isSome then "Verify line hit" else "Line verification unavailable",
           instruction := buildLineHitInstruction lineHint targetFile inferredTargetKey }]
      { mode := "natural",
        modeReason :=
          "Natural reproduction path is available from inferred controller/request mapping.",
        naturalSteps := steps, actuatedSteps := [] }
  else
    let modeReason :=
      "Actuated mode was explicitly requested. This is non-natural execution and should be used only after natural mode is reported unreachable."
    let actuatedSteps :=
      if key = "(not inferred)" then
        [({ phase := "prepare", title := "Refine target inference",
            instruction :=
              "Actuation cannot be enabled because probe key was not inferred. Re-run recipe_generate with tighter classHint/methodHint/lineHint." } :
          RecipeExecutionStep)]
      else
        let lineActuateKey := lineHint.map (fun h => key ++ ":" ++ toString h)
        [({ phase := "prepare", title := "Enable actuation mode",
            instruction :=
              match lineActuateKey with
              | some lk =>
                "Call probe_actuate with mode=actuate, targetKey=" ++ lk ++
                  ", returnBoolean=true, actuatorId=recipe_generate_fallback to force branch-taken on conditional jumps at that line. Use returnBoolean=false to force fallthrough."
              | none =>
                "Line hint is required for branch actuation. Return report with status=line_key_required." } :
          RecipeExecutionStep),
         { phase := "verify",
           title :=
             if lineHint.isSome then "Verify line hit after trigger"
             else "Line verification unavailable",
           instruction :=
             match lineHint with
             | some h =>
               "Invoke the closest reachable trigger path. Then require line_hit at line " ++
                 toString h ++ "; do not treat probe_hit alone as success."
             | none =>
               "Line hint is required for strict line verification. Return report with status=line_key_required." },
         { phase := "cleanup", title := "Cleanup actuation",
           instruction :=
             match lineActuateKey with
             | some lk =>
               "Call probe_actuate with mode=observe, targetKey=" ++ lk ++
                 " to disarm override behavior."
             | none => "Call probe_actuate with mode=observe to disarm override behavior." }]
    { mode := "actuated", modeReason := modeReason,
      naturalSteps := [], actuatedSteps := actuatedSteps }

/-- The claim's inline criterion for a polled snapshot: positive count
delta over the baseline and a timestamp at or after the inline start. -/
def snapInline (baselineCount inlineStart : Int) (s : ProbeSnapshot) : Bool :=
  match s.hitCount, s.lastHitEpochMs with
  | some hc, some t => decide (hc - baselineCount > 0) && decide (t ≥ inlineStart)
  | _, _ => false

/-- A stale snapshot: positive count delta whose timestamp is missing or
before the inline start. -/
def snapStale (baselineCount inlineStart : Int) (s : ProbeSnapshot) : Bool :=
  match s.hitCount with
  | some hc =>
    decide (hc - baselineCount > 0) &&
      !(match s.lastHitEpochMs with
        | some t => decide (t ≥ inlineStart)
        | none => false)
  | none => false

/-- The baseline short-circuit condition of an attempt. -/
def baselineInline (lastResetEpoch : Option Int) (a : WaitAttempt) : Bool :=
  let inlineStart := lastResetEpoch.getD a.waitStartEpochMs
  decide (a.baseline.hitCount.getD 0 > 0) &&
    decide (a.baseline.lastHitEpochMs.getD 0 > 0) &&
    decide (a.baseline.lastHitEpochMs.getD 0 ≥ inlineStart)

/-- Whether an attempt produces a success (baseline short-circuit or
some inline poll snapshot). -/
def attemptHit (lastResetEpoch : Option Int) (a : WaitAttempt) : Bool :=
  baselineInline lastResetEpoch a ||
    a.polls.any (snapInline (a.baseline.hitCount.getD 0)
      (lastResetEpoch.getD a.waitStartEpochMs))


def guardrailWitnessCand : InferredTarget :=
  { file := "/r/src/CatalogSpecs.java",
    className := some "CatalogSpecs", methodName := some "finalPriceLte",
    line := some 3,
    signature := some "public boolean finalPriceLte(String keyword) \x7b",
    returnsBoolean := some true, fqcn := some "com.example.CatalogSpecs",
    key := some "com.example.CatalogSpecs#finalPriceLte",
    confidence := 85,
    reasons := ["class exact match", "method exact match"] }

def guardrailWitnessIndex : List JavaIndexEntry :=
  [⟨"/r/src/CatalogSpecs.java", some "com.example", some "CatalogSpecs",
    [⟨"finalPriceLte", 3, "public boolean finalPriceLte(String keyword) \x7b"⟩]⟩]

/-- The candidate fabricated from the `/catalog` class base path alone
(no mapping, no OpenAPI route) — used to refute the no-fabrication
claim. -/
def basePathCexCandidate : RecipeCandidate :=
  { method := "GET", path := "/catalog", queryTemplate := "",
    fullUrlHint := "/catalog", bodyTemplate := none,
    rationale := ["Controller call matched: putSettingsJson(?)",
      "Inferred endpoint path: /catalog",
      "Inferred request param: (unknown)"] }

/-! # Theorems -/

/-! ## C2 — strict line mode of the three verifier tools -/

/-- C2 (amended): for every key and line hint whose resolved key fails
the code's line-key regex `#[^:]+:\d+$`, all three verifier operations
(`probe_status`, `probe_reset`, `probe_wait_hit`) return the structured
refusal with reason `line_key_required`, performing no probe HTTP
request and no polling (the `refuse` branch of the gate returns before
any network call). -/
theorem strict_line_gate_refuses (key : String) (lineHint : Option Int)
    (h : isLineKey (resolveProbeKey key lineHint) = false) :
    probeStatusGate key lineHint =
      .refuse (resolveProbeKey key lineHint) "line_key_required" ∧
    probeResetGate key lineHint =
      .refuse (resolveProbeKey key lineHint) "line_key_required" ∧
    probeWaitHitGate key lineHint =
      .refuse (resolveProbeKey key lineHint) "line_key_required" := by
  unfold probeStatusGate probeResetGate probeWaitHitGate
  simp [h]

/-- Witness for `strict_line_gate_refuses` at the method-only key
`a.B#m` with no line hint. -/
theorem strict_line_gate_refuses_witness :
    probeStatusGate "a.B#m" none = .refuse "a.B#m" "line_key_required" ∧
    probeResetGate "a.B#m" none = .refuse "a.B#m" "line_key_required" ∧
    probeWaitHitGate "a.B#m" none = .refuse "a.B#m" "line_key_required" :=
  strict_line_gate_refuses "a.B#m" none (by decide)

/-- C2 (counterexample): the spec writes the line-key regex as
`.+#[^:]+:\d+$`, requiring a nonempty class part.  The key `#m:5` fails
that regex, yet the code's guard accepts it (`/#[^:]+:\d+$/` matches)
and all three verifier tools proceed to their HTTP part instead of
returning `line_key_required`. -/
theorem strict_line_gate_spec_regex_cex :
    specIsLineKey "#m:5" = false ∧
    isLineKey "#m:5" = true ∧
    probeStatusGate "#m:5" none = .proceed "#m:5" ∧
    probeResetGate "#m:5" none = .proceed "#m:5" ∧
    probeWaitHitGate "#m:5" none = .proceed "#m:5" := by
  refine ⟨by decide, by decide, ?_, ?_, ?_⟩ <;> decide

/-! ## C10 — planner-side key resolution (`resolveProbeKey`) -/

/-- C10 (counterexample): the claim says a key that already ends in a
`:<digits>` suffix is returned unchanged.  `foo:123` ends in `:123`,
yet `resolveProbeKey` (which tests the full line-key shape
`#[^:]+:\d+$`, not just a trailing `:<digits>`) appends the hint and
returns `foo:123:7`. -/
theorem resolve_probe_key_suffix_cex :
    endsInLineSuffix "foo:123" = true ∧
    resolveProbeKey "foo:123" (some 7) = "foo:123:7" ∧
    resolveProbeKey "foo:123" (some 7) ≠ "foo:123" := by
  refine ⟨by decide, by decide, by decide⟩

/-- C10 (amended): `resolveProbeKey` returns the key unchanged when it
already matches the line-key regex `#[^:]+:\d+$` (an existing line
suffix is never rewritten, even when the hint differs), returns the key
unchanged when no hint is supplied, and otherwise appends `:<hint>`; a
key with a `#`-delimited, colon-free, nonempty trailing segment (a
method-only key) combined with a hint whose decimal rendering is a
nonempty digit string therefore passes the strict line-key check. -/
theorem resolve_probe_key_spec (key : String) (h : Int)
    (hline : isLineKey key = true)
    (key2 : String) (hnot : isLineKey key2 = false)
    (key3 : String) (hmo : findHashBeforeColon false 0 key3.data.reverse = true)
    (h3 : Int) (hdig : (toString h3).data.all Char.isDigit = true)
    (hne : (toString h3).data ≠ []) :
    resolveProbeKey key (some h) = key ∧
    resolveProbeKey key none = key ∧
    resolveProbeKey key2 (some h) = key2 ++ ":" ++ toString h ∧
    isLineKey (resolveProbeKey key3 (some h3)) = true := by
  refine ⟨by simp [resolveProbeKey, hline], rfl, by simp [resolveProbeKey, hnot], ?_⟩
  cases hk3 : isLineKey key3 with
  | true => simp [resolveProbeKey, hk3]
  | false =>
    have hres : resolveProbeKey key3 (some h3) = key3 ++ ":" ++ toString h3 := by
      simp [resolveProbeKey, hk3]
    rw [hres]
    unfold isLineKey lineKeyCheck
    have hdata : (key3 ++ ":" ++ toString h3).data.reverse =
        (toString h3).data.reverse ++ ':' :: key3.data.reverse := by
      simp [String.data_append]
    rw [hdata]
    have hall : ((toString h3).data.reverse).all Char.isDigit = true := by
      simpa [List.all_reverse] using hdig
    have htake : ∀ (ds rest : List Char), ds.all Char.isDigit = true →
        (ds ++ ':' :: rest).takeWhile Char.isDigit = ds := by
      intro ds rest hds
      induction ds with
      | nil => simp [List.takeWhile_cons]
      | cons a as ih =>
        simp only [List.all_cons, Bool.and_eq_true] at hds
        simp [List.takeWhile_cons, hds.1, ih hds.2]
    have htake2 : List.takeWhile (fun c => c.isDigit)
        ((toString h3).data.reverse ++ ':' :: key3.data.reverse) =
        (toString h3).data.reverse := htake _ _ hall
    have hne2 : ((toString h3).data.reverse).isEmpty = false := by
      simp [List.isEmpty_iff, hne]
    simp [htake2, hne2, List.drop_left, hmo]

/-- Witness for `resolve_probe_key_spec` on concrete keys. -/
theorem resolve_probe_key_spec_witness :
    resolveProbeKey "a.B#m:5" (some 7) = "a.B#m:5" ∧
    resolveProbeKey "a.B#m:5" none = "a.B#m:5" ∧
    resolveProbeKey "foo:123" (some 7) = "foo:123" ++ ":" ++ toString (7 : Int) ∧
    isLineKey (resolveProbeKey "a.B#m" (some 7)) = true := by
  have h := resolve_probe_key_spec "a.B#m:5" 7 (by decide) "foo:123" (by decide)
    "a.B#m" (by decide) 7 (by decide) (by decide)
  exact h

/-! ## C1 — inline-hit criterion of `probe_wait_hit` -/

theorem pollStep_fst_isSome (bc is : Int) (st : Option StaleCandidate)
    (s : ProbeSnapshot) : (pollStep bc is st s).1.isSome = snapInline bc is s := by
  unfold pollStep snapInline
  cases hhc : s.hitCount with
  | none => simp
  | some hc =>
    cases hlast : s.lastHitEpochMs with
    | none =>
      by_cases h1 : hc - bc > 0 <;> simp [h1]
    | some t =>
      by_cases h1 : hc - bc > 0 <;> by_cases h2 : t ≥ is <;> simp [h1, h2]

theorem pollStep_snd_isSome (bc is : Int) (st : Option StaleCandidate)
    (s : ProbeSnapshot) (h : snapInline bc is s = false) :
    (pollStep bc is st s).2.isSome = (st.isSome || snapStale bc is s) := by
  unfold pollStep
  unfold snapInline at h
  unfold snapStale
  cases hhc : s.hitCount with
  | none => simp
  | some hc =>
    rw [hhc] at h
    cases hlast : s.lastHitEpochMs with
    | none =>
      by_cases h1 : hc - bc > 0 <;> simp [h1]
    | some t =>
      rw [hlast] at h
      by_cases h1 : hc - bc > 0 <;> by_cases h2 : t ≥ is
      · simp [h1, h2] at h
      all_goals simp [h1, h2]

theorem pollLoop_fst_isSome (bc is : Int) (st : Option StaleCandidate)
    (polls : List ProbeSnapshot) :
    (pollLoop bc is st polls).1.isSome = polls.any (snapInline bc is) := by
  induction polls generalizing st with
  | nil => simp [pollLoop]
  | cons s rest ih =>
    unfold pollLoop
    cases hstep : pollStep bc is st s with
    | mk fst snd =>
      cases fst with
      | some v =>
        have := pollStep_fst_isSome bc is st s
        rw [hstep] at this
        simp at this
        simp [List.any_cons, ← this]
      | none =>
        have := pollStep_fst_isSome bc is st s
        rw [hstep] at this
        simp at this
        simp [List.any_cons, ← this, ih snd]

theorem pollLoop_snd_isSome (bc is : Int) (st : Option StaleCandidate)
    (polls : List ProbeSnapshot)
    (h : polls.any (snapInline bc is) = false) :
    (pollLoop bc is st polls).2.isSome = (st.isSome || polls.any (snapStale bc is)) := by
  induction polls generalizing st with
  | nil => simp [pollLoop]
  | cons s rest ih =>
    simp only [List.any_cons, Bool.or_eq_false_iff] at h
    unfold pollLoop
    cases hstep : pollStep bc is st s with
    | mk fst snd =>
      cases fst with
      | some v =>
        have := pollStep_fst_isSome bc is st s
        rw [hstep] at this
        simp [h.1] at this
      | none =>
        have h2 := pollStep_snd_isSome bc is st s h.1
        rw [hstep] at h2
        simp only at h2
        simp [List.any_cons, ih snd h.2, h2, Bool.or_assoc]

theorem probeWaitHitLoop_hit (lre : Option Int) (st : Option StaleCandidate)
    (attempts : List WaitAttempt) :
    (probeWaitHitLoop lre st attempts).hit = attempts.any (attemptHit lre) := by
  induction attempts generalizing st with
  | nil => simp [probeWaitHitLoop]
  | cons a rest ih =>
    unfold probeWaitHitLoop
    simp only [List.any_cons]
    split
    next hcond =>
      have hb : baselineInline lre a = true := hcond
      simp [attemptHit, hb]
    next hcond =>
      have hb : baselineInline lre a = false :=
        Bool.eq_false_iff.mpr (fun hx => hcond hx)
      cases hloop : pollLoop (a.baseline.hitCount.getD 0)
          (lre.getD a.waitStartEpochMs) st a.polls with
      | mk fst snd =>
        have hfst := pollLoop_fst_isSome (a.baseline.hitCount.getD 0)
          (lre.getD a.waitStartEpochMs) st a.polls
        rw [hloop] at hfst
        cases fst with
        | some v =>
          obtain ⟨hc, d⟩ := v
          simp only [Option.isSome_some] at hfst
          simp [attemptHit, hb, ← hfst]
        | none =>
          simp only [Option.isSome_none] at hfst
          simp [attemptHit, hb, ← hfst, ih snd]

theorem probeWaitHitLoop_shape (lre : Option Int) (st : Option StaleCandidate)
    (attempts : List WaitAttempt) :
    ((probeWaitHitLoop lre st attempts).hit = true →
      (probeWaitHitLoop lre st attempts).inline = true) ∧
    ((probeWaitHitLoop lre st attempts).hit = false →
      (probeWaitHitLoop lre st attempts).inline = false ∧
      (probeWaitHitLoop lre st attempts).reason = some "timeout_no_inline_hit") := by
  induction attempts generalizing st with
  | nil => simp [probeWaitHitLoop]
  | cons a rest ih =>
    unfold probeWaitHitLoop
    by_cases hcond : (decide (a.baseline.hitCount.getD 0 > 0) &&
        decide (a.baseline.lastHitEpochMs.getD 0 > 0) &&
        decide (a.baseline.lastHitEpochMs.getD 0 ≥ lre.getD a.waitStartEpochMs)) = true
    · simp [hcond]
    · simp only [Bool.not_eq_true] at hcond
      simp only [hcond, Bool.false_eq_true, if_false]
      cases hloop : pollLoop (a.baseline.hitCount.getD 0)
          (lre.getD a.waitStartEpochMs) st a.polls with
      | mk fst snd =>
        cases fst with
        | some v =>
          obtain ⟨hc, d⟩ := v
          simp
        | none => exact ih snd

theorem probeWaitHitLoop_stale (lre : Option Int) (st : Option StaleCandidate)
    (attempts : List WaitAttempt)
    (h : attempts.any (attemptHit lre) = false) :
    (probeWaitHitLoop lre st attempts).staleCandidate.isSome =
      (st.isSome || attempts.any (fun a => a.polls.any
        (snapStale (a.baseline.hitCount.getD 0) (lre.getD a.waitStartEpochMs)))) := by
  induction attempts generalizing st with
  | nil => simp [probeWaitHitLoop]
  | cons a rest ih =>
    simp only [List.any_cons, Bool.or_eq_false_iff] at h
    have hbase : baselineInline lre a = false := by
      have := h.1
      unfold attemptHit at this
      exact (Bool.or_eq_false_iff.mp this).1
    have hpolls : a.polls.any (snapInline (a.baseline.hitCount.getD 0)
        (lre.getD a.waitStartEpochMs)) = false := by
      have := h.1
      unfold attemptHit at this
      exact (Bool.or_eq_false_iff.mp this).2
    unfold probeWaitHitLoop
    have hcond : (decide (a.baseline.hitCount.getD 0 > 0) &&
        decide (a.baseline.lastHitEpochMs.getD 0 > 0) &&
        decide (a.baseline.lastHitEpochMs.getD 0 ≥ lre.getD a.waitStartEpochMs)) = false :=
      hbase
    simp only [hcond, Bool.false_eq_true, if_false]
    · cases hloop : pollLoop (a.baseline.hitCount.getD 0)
          (lre.getD a.waitStartEpochMs) st a.polls with
      | mk fst snd =>
        have hfst := pollLoop_fst_isSome (a.baseline.hitCount.getD 0)
          (lre.getD a.waitStartEpochMs) st a.polls
        rw [hloop, hpolls] at hfst
        cases fst with
        | some v => simp at hfst
        | none =>
          have hsnd := pollLoop_snd_isSome (a.baseline.hitCount.getD 0)
            (lre.getD a.waitStartEpochMs) st a.polls hpolls
          rw [hloop] at hsnd
          simp only at hsnd
          simp only [List.any_cons]
          rw [ih snd h.2, hsnd, Bool.or_assoc]

/-- C1: the inline-hit criterion of `probe_wait_hit`.  For a call with a
line-level key, over any trace of polled status snapshots:
(1) the call returns success (`hit = true`) exactly when some attempt
    either finds a baseline already inline or observes a polled snapshot
    whose count delta over the captured baseline is strictly positive
    AND whose `lastHitEpochMs` is at least the captured inline-start
    epoch (the recorded per-key last-reset epoch, or the attempt's
    wait-start time when none was recorded — `lre.getD waitStart`);
(2) success always carries `inline = true`;
(3) a non-success is the timeout result `hit = false` with reason
    `timeout_no_inline_hit`;
(4) the timeout result carries a `staleCandidate` exactly when some
    polled snapshot had a positive delta with a non-inline timestamp;
(5) at the level of a single poll step, success is declared iff
    `hitCount` is numeric with `hitCount - baseline > 0` and
    `lastHitEpochMs` is numeric with `lastHitEpochMs ≥ inlineStart`;
(6) a stale snapshot (positive delta, timestamp missing or below the
    inline start) never yields success: it only records the stale
    candidate and polling continues. -/
theorem wait_hit_inline_criterion (lre : Option Int) (attempts : List WaitAttempt) :
    ((probeWaitHitModel lre attempts).hit = true ↔
      attempts.any (attemptHit lre) = true) ∧
    ((probeWaitHitModel lre attempts).hit = true →
      (probeWaitHitModel lre attempts).inline = true) ∧
    ((probeWaitHitModel lre attempts).hit = false →
      (probeWaitHitModel lre attempts).inline = false ∧
      (probeWaitHitModel lre attempts).reason = some "timeout_no_inline_hit") ∧
    ((probeWaitHitModel lre attempts).hit = false →
      (probeWaitHitModel lre attempts).staleCandidate.isSome =
        attempts.any (fun a => a.polls.any
          (snapStale (a.baseline.hitCount.getD 0) (lre.getD a.waitStartEpochMs)))) ∧
    (∀ (bc is : Int) (st : Option StaleCandidate) (s : ProbeSnapshot),
      (pollStep bc is st s).1.isSome =
        (match s.hitCount, s.lastHitEpochMs with
         | some hc, some t => decide (hc - bc > 0) && decide (t ≥ is)
         | _, _ => false)) ∧
    (∀ (bc is : Int) (st : Option StaleCandidate) (s : ProbeSnapshot) (hc : Int),
      s.hitCount = some hc → snapStale bc is s = true →
      pollStep bc is st s = (none, some ⟨hc, hc - bc, s.lastHitEpochMs,
        "hit_count_changed_but_not_inline_to_current_wait_window"⟩)) := by
  refine ⟨?_, (probeWaitHitLoop_shape lre none attempts).1,
    (probeWaitHitLoop_shape lre none attempts).2, ?_, ?_, ?_⟩
  · rw [probeWaitHitModel, probeWaitHitLoop_hit]
  · intro hfalse
    have hany : attempts.any (attemptHit lre) = false := by
      have := probeWaitHitLoop_hit lre none attempts
      rw [probeWaitHitModel] at hfalse
      rw [hfalse] at this
      exact this.symm
    have := probeWaitHitLoop_stale lre none attempts hany
    simpa [probeWaitHitModel] using this
  · intro bc is st s
    rw [pollStep_fst_isSome]
    rfl
  · intro bc is st s hc hhc hstale
    unfold snapStale at hstale
    rw [hhc] at hstale
    unfold pollStep
    rw [hhc]
    cases hlast : s.lastHitEpochMs with
    | none =>
      rw [hlast] at hstale
      simp only [Bool.and_eq_true, decide_eq_true_eq] at hstale
      simp [hstale.1]
    | some t =>
      rw [hlast] at hstale
      simp only [Bool.and_eq_true, decide_eq_true_eq, Bool.not_eq_true'] at hstale
      have ht : ¬ (t ≥ is) := by
        intro hcontra
        rw [decide_eq_true hcontra] at hstale
        exact absurd hstale.2 (by simp)
      simp [hstale.1, ht]

/-- Witness for `wait_hit_inline_criterion`: with last-reset epoch 100,
an attempt whose baseline is empty and whose single polled snapshot has
delta 3 at epoch 150 succeeds inline; the same snapshot at epoch 90
(before the reset) instead times out with the stale candidate. -/
theorem wait_hit_inline_criterion_witness :
    (probeWaitHitModel (some 100)
      [⟨50, ⟨some 0, some 0⟩, [⟨some 3, some 150⟩]⟩]).hit = true ∧
    (probeWaitHitModel (some 100)
      [⟨50, ⟨some 0, some 0⟩, [⟨some 3, some 150⟩]⟩]).inline = true ∧
    (probeWaitHitModel (some 100)
      [⟨50, ⟨some 0, some 0⟩, [⟨some 3, some 90⟩]⟩]).hit = false ∧
    (probeWaitHitModel (some 100)
      [⟨50, ⟨some 0, some 0⟩, [⟨some 3, some 90⟩]⟩]).reason =
        some "timeout_no_inline_hit" ∧
    (probeWaitHitModel (some 100)
      [⟨50, ⟨some 0, some 0⟩, [⟨some 3, some 90⟩]⟩]).staleCandidate.isSome = true := by
  have h1 := wait_hit_inline_criterion (some 100)
    [⟨50, ⟨some 0, some 0⟩, [⟨some 3, some 150⟩]⟩]
  have h2 := wait_hit_inline_criterion (some 100)
    [⟨50, ⟨some 0, some 0⟩, [⟨some 3, some 90⟩]⟩]
  have hhit : (probeWaitHitModel (some 100)
      [⟨50, ⟨some 0, some 0⟩, [⟨some 3, some 150⟩]⟩]).hit = true :=
    h1.1.mpr (by decide)
  have hmiss : (probeWaitHitModel (some 100)
      [⟨50, ⟨some 0, some 0⟩, [⟨some 3, some 90⟩]⟩]).hit = false := by
    cases hcase : (probeWaitHitModel (some 100)
          [⟨50, ⟨some 0, some 0⟩, [⟨some 3, some 90⟩]⟩]).hit with
    | false => rfl
    | true => exact absurd (h2.1.mp hcase) (by decide)
  refine ⟨hhit, h1.2.1 hhit, hmiss, (h2.2.2.1 hmiss).2, ?_⟩
  rw [h2.2.2.2.1 hmiss]
  decide

/-! ## C3 — runtime configuration and branch decisions -/

/-- C3 (counterexample): the claim asserts that whenever the runtime is
in actuate mode with a non-empty stored target key equal to
`class#method:line`, the branch decision is `1` (forced boolean true).
With the stored target `#m:5`, class `""`, method `"m"`, line `5`, the
target is non-empty and equals `class#method:line` exactly, yet the
code returns `-1` because the class name is blank. -/
theorem branch_decision_blank_class_cex :
    (configure (some "actuate") (some "id") (some "#m:5") true).actuateTargetKey
      = "#m:5" ∧
    "#m:5" ≠ "" ∧
    "" ++ "#" ++ "m" ++ ":" ++ toString (5 : Int) = "#m:5" ∧
    branchDecisionByClassMethodLine
      (configure (some "actuate") (some "id") (some "#m:5") true)
      (some "") (some "m") 5 = -1 ∧
    (-1 : Int) ≠ 1 := by
  refine ⟨by decide, by decide, by decide, by decide, by decide⟩

theorem javaIsBlank_hash_false (c m t : String) :
    javaIsBlank (c ++ "#" ++ m ++ ":" ++ t) = false := by
  unfold javaIsBlank
  rw [Bool.eq_false_iff]
  intro hall
  rw [List.all_eq_true] at hall
  have hmem : '#' ∈ (c ++ "#" ++ m ++ ":" ++ t).data := by
    simp [String.data_append]
  have := hall _ hmem
  simp at this

/-- C3 (amended): after `configure(mode, actuatorId, target, forced)`:
if the normalised mode is not `actuate` (null and blank included) the
stored state is `observe` with actuator id, target key and forced
boolean cleared, every `shouldActuateBooleanReturn` call returns
`false`, and every `branchDecisionByClassMethodLine` call returns `-1`;
if the normalised mode is `actuate` and the stored (trimmed) target key
equals `class#method:line` for non-blank class and method and a
positive line, the decision is `1` when the forced boolean is true and
`0` when it is false; and in every state, any call returning something
other than `-1` requires actuate mode, a non-blank stored target,
non-null non-blank class and method, a positive line, and the stored
target equal to `class#method:line` — so an empty or blank class or
method (even one making the key match) yields `-1`. -/
theorem configure_branch_decision_spec (mode aid tgt : Option String) (fb : Bool) :
    (configureEffectiveMode mode ≠ "actuate" →
      configure mode aid tgt fb =
        ⟨"observe", "", "", false⟩ ∧
      (∀ c m, shouldActuateBooleanReturn (configure mode aid tgt fb) c m = false) ∧
      (∀ c m l, branchDecisionByClassMethodLine (configure mode aid tgt fb) c m l = -1)) ∧
    (configureEffectiveMode mode = "actuate" →
      ∀ (c m : String) (l : Int), javaIsBlank c = false → javaIsBlank m = false →
        0 < l →
        (configure mode aid tgt fb).actuateTargetKey =
          c ++ "#" ++ m ++ ":" ++ toString l →
        branchDecisionByClassMethodLine (configure mode aid tgt fb)
          (some c) (some m) l = (if fb then 1 else 0)) ∧
    (∀ (st : ProbeRuntimeState) (c m : Option String) (l : Int),
      branchDecisionByClassMethodLine st c m l ≠ -1 →
      st.mode = "actuate" ∧ javaIsBlank st.actuateTargetKey = false ∧
      ∃ cs ms, c = some cs ∧ m = some ms ∧ javaIsBlank cs = false ∧
        javaIsBlank ms = false ∧ 0 < l ∧
        st.actuateTargetKey = cs ++ "#" ++ ms ++ ":" ++ toString l ∧
        branchDecisionByClassMethodLine st c m l =
          (if st.actuateReturnBoolean then 1 else 0)) := by
  refine ⟨?_, ?_, ?_⟩
  · intro hmode
    have hconf : configure mode aid tgt fb = ⟨"observe", "", "", false⟩ := by
      unfold configure
      simp [hmode]
    refine ⟨hconf, ?_, ?_⟩
    · intro c m
      rw [hconf]
      unfold shouldActuateBooleanReturn
      simp
    · intro c m l
      rw [hconf]
      unfold branchDecisionByClassMethodLine
      simp
  · intro hmode c m l hc hm hl htgt
    have hconf : configure mode aid tgt fb =
        ⟨"actuate", (aid.map javaTrim).getD "", (tgt.map javaTrim).getD "", fb⟩ := by
      unfold configure
      simp [hmode]
    rw [hconf] at htgt ⊢
    simp only at htgt
    unfold branchDecisionByClassMethodLine
    simp only [htgt]
    rw [javaIsBlank_hash_false]
    simp [hc, hm, hl]
  · intro st c m l hne
    unfold branchDecisionByClassMethodLine at hne
    by_cases h1 : st.mode = "actuate"
    case neg => simp [h1] at hne
    by_cases h2 : javaIsBlank st.actuateTargetKey
    case pos => simp [h1, h2] at hne
    cases c with
    | none => simp [h1, h2] at hne
    | some cs =>
      cases m with
      | none => simp [h1, h2] at hne
      | some ms =>
        by_cases h3 : javaIsBlank cs
        case pos => simp [h1, h2, h3] at hne
        by_cases h4 : javaIsBlank ms
        case pos => simp [h1, h2, h3, h4] at hne
        by_cases h5 : l ≤ 0
        case pos => simp [h1, h2, h3, h4, h5] at hne
        by_cases h6 : st.actuateTargetKey = cs ++ "#" ++ ms ++ ":" ++ toString l
        case neg => simp [h1, h2, h3, h4, h5, h6] at hne
        refine ⟨h1, by simp [h2], cs, ms, rfl, rfl, by simp [h3], by simp [h4],
          by omega, h6, ?_⟩
        unfold branchDecisionByClassMethodLine
        simp [h1, h3, h4, h5, h6, javaIsBlank_hash_false]

/-- Witness for `configure_branch_decision_spec`: observe-mode clearing
and a forced-taken decision at a fully matching target. -/
theorem configure_branch_decision_spec_witness :
    configure (some "observe") (some "id") (some "c.C#m:10") true =
      ⟨"observe", "", "", false⟩ ∧
    branchDecisionByClassMethodLine
      (configure (some "observe") (some "id") (some "c.C#m:10") true)
      (some "c.C") (some "m") 10 = -1 ∧
    branchDecisionByClassMethodLine
      (configure (some "actuate") (some "id") (some "c.C#m:10") true)
      (some "c.C") (some "m") 10 = 1 := by
  have h1 := configure_branch_decision_spec (some "observe") (some "id")
    (some "c.C#m:10") true
  have h2 := configure_branch_decision_spec (some "actuate") (some "id")
    (some "c.C#m:10") true
  have hobs := h1.1 (by decide)
  have hact := h2.2.1 (by decide) "c.C" "m" 10 (by decide) (by decide)
    (by decide) (by decide)
  exact ⟨hobs.1, hobs.2.2 (some "c.C") (some "m") 10, by simpa using hact⟩

/-! ## C6 — startup-key precedence of the agent configuration -/

/-- C6 (counterexample): the claim orders the channels
`args < env < system-property`, so with the system property
`mcp.probe.mode=observe` set, an agent-args `mode=actuate` should lose
and the effective mode should be `observe`.  In the code the agent-args
pairs are applied on top of the property/env defaults, so the result is
`actuate`. -/
theorem agent_args_precedence_cex :
    (fromAgentArgs (some "mode=actuate")
      (fun k => if k = "mcp.probe.mode" then some "observe" else none)
      (fun k => if k = "MCP_PROBE_MODE" then some "observe" else none)
      none).mode = "actuate" ∧
    "actuate" ≠ "observe" := by
  refine ⟨by decide, by decide⟩

theorem firstNonBlank_of_prop (p : String) (e : Option String)
    (h : javaTrim p ≠ "") : firstNonBlank (some p) e = some p := by
  unfold firstNonBlank
  simp [h]

theorem firstNonBlank_of_env (e : String) (h : javaTrim e ≠ "") :
    firstNonBlank none (some e) = some e := by
  unfold firstNonBlank
  simp [h]

/-- C6 (amended): the effective precedence is
`env < system-property < args`.  For the defaults, each recognized key
reads the JVM system property first and falls back to the environment
variable (both skipped when blank); a pair in the agent-args string then
overrides whatever default was computed — shown for all six recognized
keys at once by an args string that sets them all, with arbitrary
property and environment maps. -/
theorem agent_config_precedence_spec :
    (∀ (props env : EnvMap) (inferredInclude : Option String),
      fromAgentArgs
        (some "mode=actuate;actuatorId=agentA;actuateTarget=c.C#m:10;actuateReturnBoolean=true;include=com.a.**;exclude=com.b.**")
        props env inferredInclude =
        ⟨"127.0.0.1", 9191, "actuate", "agentA", "c.C#m:10", true,
          ["com.a.**"], ["com.b.**"]⟩) ∧
    (∀ (props env : EnvMap) (p : String),
      props "mcp.probe.mode" = some p → javaTrim p ≠ "" →
      readDefaultMode props env = normalizeMode (some p)) ∧
    (∀ (props env : EnvMap) (e : String),
      props "mcp.probe.mode" = none → env "MCP_PROBE_MODE" = some e →
      javaTrim e ≠ "" → readDefaultMode props env = normalizeMode (some e)) ∧
    (∀ (props env : EnvMap) (p : String),
      props "mcp.probe.actuator.id" = some p → javaTrim p ≠ "" →
      readDefaultActuatorId props env = normalizeActuatorId (some p)) ∧
    (∀ (props env : EnvMap) (e : String),
      props "mcp.probe.actuator.id" = none →
      env "MCP_PROBE_ACTUATOR_ID" = some e → javaTrim e ≠ "" →
      readDefaultActuatorId props env = normalizeActuatorId (some e)) ∧
    (∀ (props env : EnvMap) (p : String),
      props "mcp.probe.actuate.target" = some p → javaTrim p ≠ "" →
      readDefaultActuateTargetKey props env = normalizeTargetKey (some p)) ∧
    (∀ (props env : EnvMap) (e : String),
      props "mcp.probe.actuate.target" = none →
      env "MCP_PROBE_ACTUATE_TARGET" = some e → javaTrim e ≠ "" →
      readDefaultActuateTargetKey props env = normalizeTargetKey (some e)) ∧
    (∀ (props env : EnvMap) (p : String),
      props "mcp.probe.actuate.return.boolean" = some p → javaTrim p ≠ "" →
      readDefaultActuateReturnBoolean props env = parseBoolean (some p) false) ∧
    (∀ (props env : EnvMap) (e : String),
      props "mcp.probe.actuate.return.boolean" = none →
      env "MCP_PROBE_ACTUATE_RETURN_BOOLEAN" = some e → javaTrim e ≠ "" →
      readDefaultActuateReturnBoolean props env = parseBoolean (some e) false) ∧
    (∀ (props env : EnvMap) (inf : Option String) (p : String),
      props "mcp.probe.include" = some p → javaTrim p ≠ "" →
      readDefaultInclude props env inf = p) ∧
    (∀ (props env : EnvMap) (inf : Option String) (e : String),
      props "mcp.probe.include" = none → env "MCP_PROBE_INCLUDE" = some e →
      javaTrim e ≠ "" → readDefaultInclude props env inf = e) ∧
    (∀ (props env : EnvMap) (p : String),
      props "mcp.probe.exclude" = some p → javaTrim p ≠ "" →
      readDefaultExclude props env = p) ∧
    (∀ (props env : EnvMap) (e : String),
      props "mcp.probe.exclude" = none → env "MCP_PROBE_EXCLUDE" = some e →
      javaTrim e ≠ "" → readDefaultExclude props env = e) := by
  refine ⟨fun props env inf => rfl, ?_, ?_, ?_, ?_, ?_, ?_, ?_, ?_, ?_, ?_, ?_, ?_⟩
  · intro props env p hp htrim
    unfold readDefaultMode
    rw [hp, firstNonBlank_of_prop p _ htrim]
  · intro props env e hp he htrim
    unfold readDefaultMode
    rw [hp, he, firstNonBlank_of_env e htrim]
  · intro props env p hp htrim
    unfold readDefaultActuatorId
    rw [hp, firstNonBlank_of_prop p _ htrim]
  · intro props env e hp he htrim
    unfold readDefaultActuatorId
    rw [hp, he, firstNonBlank_of_env e htrim]
  · intro props env p hp htrim
    unfold readDefaultActuateTargetKey
    rw [hp, firstNonBlank_of_prop p _ htrim]
  · intro props env e hp he htrim
    unfold readDefaultActuateTargetKey
    rw [hp, he, firstNonBlank_of_env e htrim]
  · intro props env p hp htrim
    unfold readDefaultActuateReturnBoolean
    rw [hp, firstNonBlank_of_prop p _ htrim]
  · intro props env e hp he htrim
    unfold readDefaultActuateReturnBoolean
    rw [hp, he, firstNonBlank_of_env e htrim]
  · intro props env inf p hp htrim
    unfold readDefaultInclude
    rw [hp, firstNonBlank_of_prop p _ htrim]
  · intro props env inf e hp he htrim
    unfold readDefaultInclude
    rw [hp, he, firstNonBlank_of_env e htrim]
  · intro props env p hp htrim
    unfold readDefaultExclude
    rw [hp, firstNonBlank_of_prop p _ htrim]
  · intro props env e hp he htrim
    unfold readDefaultExclude
    rw [hp, he, firstNonBlank_of_env e htrim]

/-- Witness for `agent_config_precedence_spec` at concrete maps. -/
theorem agent_config_precedence_spec_witness :
    fromAgentArgs
      (some "mode=actuate;actuatorId=agentA;actuateTarget=c.C#m:10;actuateReturnBoolean=true;include=com.a.**;exclude=com.b.**")
      (fun k => if k = "mcp.probe.mode" then some "observe" else none)
      (fun k => if k = "MCP_PROBE_MODE" then some "observe" else none) none =
      ⟨"127.0.0.1", 9191, "actuate", "agentA", "c.C#m:10", true,
        ["com.a.**"], ["com.b.**"]⟩ ∧
    readDefaultMode (fun k => if k = "mcp.probe.mode" then some "actuate" else none)
      (fun k => if k = "MCP_PROBE_MODE" then some "observe" else none) = "actuate" ∧
    readDefaultMode (fun _ => none)
      (fun k => if k = "MCP_PROBE_MODE" then some "actuate" else none) = "actuate" := by
  have h := agent_config_precedence_spec
  refine ⟨h.1 _ _ none, ?_, ?_⟩
  · have := h.2.1 (fun k => if k = "mcp.probe.mode" then some "actuate" else none)
      (fun k => if k = "MCP_PROBE_MODE" then some "observe" else none)
      "actuate" (by decide) (by decide)
    simpa using this
  · have := h.2.2.1 (fun _ => none)
      (fun k => if k = "MCP_PROBE_MODE" then some "actuate" else none)
      "actuate" rfl (by decide) (by decide)
    simpa using this

/-! ## C7 — target-inference guardrail -/

theorem normalizeHint_wrap (o : Option String) :
    normalizeHint (o.bind (fun c => if c = "" then none else some c)) =
      normalizeHint o := by
  cases o with
  | none => rfl
  | some c =>
    by_cases h : c = ""
    · subst h
      rfl
    · simp [h]

/-- C7: in target inference, whenever a class hint or a method hint was
provided (non-empty after normalisation), every candidate returned by
`inferTargets` matched at least one of them — exactly (class or method
name) or as a substring (of the class name, file base name, or method
name).  Line proximity alone never yields a candidate from an unrelated
class, for any `lineHint` and candidate cap. -/
theorem infer_targets_guardrail (index : List JavaIndexEntry)
    (classHint methodHint : Option String) (lineHint maxCandidates : Option Int)
    (cand : InferredTarget)
    (hmem : cand ∈ (inferTargetsFromIndex index classHint methodHint
      lineHint maxCandidates).2)
    (hprov : normalizeHint classHint ≠ "" ∨ normalizeHint methodHint ≠ "") :
    classMatchedFlag classHint cand.file cand.className = true ∨
    methodMatchedFlag methodHint cand.methodName = true := by
  unfold inferTargetsFromIndex at hmem
  simp only at hmem
  have hmem2 := List.mem_of_mem_take hmem
  rw [List.mem_mergeSort] at hmem2
  rw [List.mem_flatMap] at hmem2
  obtain ⟨f, _, hf⟩ := hmem2
  rw [List.mem_filterMap] at hf
  obtain ⟨m, _, hcand⟩ := hf
  unfold candidateFor at hcand
  by_cases hscore : (scoreCandidate
      { classHint := classHint.bind (fun c => if c = "" then none else some c),
        methodHint := methodHint.bind (fun c => if c = "" then none else some c),
        lineHint := lineHint, filePath := f.fileAbs, className := f.className,
        methodName := some m.name, methodLine := some m.line }).score ≤ 0
  · rw [if_pos hscore] at hcand
    exact absurd hcand (by simp)
  · rw [if_neg hscore] at hcand
    have hcand' := Option.some.inj hcand
    have hfile : cand.file = f.fileAbs := by rw [← hcand']
    have hclass : cand.className = f.className := by rw [← hcand']
    have hmeth : cand.methodName = some m.name := by rw [← hcand']
    by_contra hneg
    push_neg at hneg
    obtain ⟨hc, hm⟩ := hneg
    have hwrapC : ∀ x y, classMatchedFlag
        (classHint.bind (fun c => if c = "" then none else some c)) x y =
        classMatchedFlag classHint x y := by
      intro x y
      unfold classMatchedFlag
      rw [normalizeHint_wrap]
    have hwrapM : ∀ y, methodMatchedFlag
        (methodHint.bind (fun c => if c = "" then none else some c)) y =
        methodMatchedFlag methodHint y := by
      intro y
      unfold methodMatchedFlag
      rw [normalizeHint_wrap]
    have hcf : classMatchedFlag
        (classHint.bind (fun c => if c = "" then none else some c))
        f.fileAbs f.className = false := by
      rw [hwrapC, ← hfile, ← hclass]
      exact Bool.eq_false_iff.mpr hc
    have hmf : methodMatchedFlag
        (methodHint.bind (fun c => if c = "" then none else some c))
        (some m.name) = false := by
      rw [hwrapM, ← hmeth]
      exact Bool.eq_false_iff.mpr hm
    have hprov2 : (normalizeHint
          (classHint.bind (fun c => if c = "" then none else some c)) ≠ "" ∨
        normalizeHint
          (methodHint.bind (fun c => if c = "" then none else some c)) ≠ "") := by
      rw [normalizeHint_wrap, normalizeHint_wrap]
      exact hprov
    have hzero : (scoreCandidate
        { classHint := classHint.bind (fun c => if c = "" then none else some c),
          methodHint := methodHint.bind (fun c => if c = "" then none else some c),
          lineHint := lineHint, filePath := f.fileAbs, className := f.className,
          methodName := some m.name, methodLine := some m.line }).score = 0 := by
      rcases hprov2 with hp | hp <;>
        simp [scoreCandidate, hcf, hmf, hp]
    omega

theorem mergeSort_singleton {α : Type} (le : α → α → Bool) (a : α) :
    [a].mergeSort le = [a] := by
  have hlen : ([a].mergeSort le).length = 1 := by
    simpa using @List.length_mergeSort _ le [a]
  obtain ⟨b, hb⟩ := List.length_eq_one.mp hlen
  have hm : a ∈ [a].mergeSort le := List.mem_mergeSort.mpr (by simp)
  rw [hb] at hm ⊢
  simp at hm
  rw [hm]

/-- Witness for `infer_targets_guardrail`: a matching candidate from a
one-entry index satisfies the matched-hint disjunction. -/
theorem infer_targets_guardrail_witness :
    classMatchedFlag (some "CatalogSpecs") guardrailWitnessCand.file
      guardrailWitnessCand.className = true ∨
    methodMatchedFlag (some "finalPriceLte") guardrailWitnessCand.methodName = true := by
  have hmem : guardrailWitnessCand ∈
      (inferTargetsFromIndex guardrailWitnessIndex
        (some "CatalogSpecs") (some "finalPriceLte") none none).2 := by
    unfold inferTargetsFromIndex
    have hout : guardrailWitnessIndex.flatMap (fun f =>
        f.methods.filterMap (fun m =>
          candidateFor (some "CatalogSpecs") (some "finalPriceLte") none f m)) =
        [guardrailWitnessCand] := by decide
    simp only [hout, mergeSort_singleton]
    decide
  exact infer_targets_guardrail guardrailWitnessIndex (some "CatalogSpecs")
    (some "finalPriceLte") none none guardrailWitnessCand hmem
    (Or.inl (by decide))

/-! ## C8 — class-filter decision procedure and pattern compilation -/

/-- C8: a non-empty class name is instrumentable iff it matches at
least one compiled include pattern and no compiled exclude pattern; the
empty name is never instrumentable.  Compilation: `toRegex("a.b.c")`
(wildcard-free, so treated as the package prefix `a.b.c.**`) matches
`a.b.c.X` and `a.b.c.d.e.X` but not `a.b.cX` and not `a.x.c.X`; a
single `*` matches one dot-free segment (`a.*` matches `a.bc`, not
`a.b.c`) while `**` matches any substring including dots. -/
theorem class_filter_spec :
    (∀ (inc exc : List String) (c : String), c ≠ "" →
      (shouldInstrument inc exc c = true ↔
        ((∃ p ∈ compilePatterns inc, rxMatch p c = true) ∧
         ∀ p ∈ compilePatterns exc, rxMatch p c = false))) ∧
    (∀ inc exc, shouldInstrument inc exc "" = false) ∧
    rxMatch (toRegex "a.b.c") "a.b.c.X" = true ∧
    rxMatch (toRegex "a.b.c") "a.b.c.d.e.X" = true ∧
    rxMatch (toRegex "a.b.c") "a.b.cX" = false ∧
    rxMatch (toRegex "a.b.c") "a.x.c.X" = false ∧
    rxMatch (toRegex "a.*") "a.bc" = true ∧
    rxMatch (toRegex "a.*") "a.b.c" = false ∧
    rxMatch (toRegex "a.**") "a.b.c" = true := by
  refine ⟨?_, ?_, by decide, by decide, by decide, by decide, by decide,
    by decide, by decide⟩
  · intro inc exc c hc
    unfold shouldInstrument matchesAny
    rw [if_neg hc]
    constructor
    · intro hinstr
      cases hA : (compilePatterns inc).any (fun p => rxMatch p c) with
      | false =>
        rw [hA] at hinstr
        simp at hinstr
      | true =>
        rw [hA] at hinstr
        simp only [Bool.not_true, Bool.false_eq_true, if_false] at hinstr
        refine ⟨List.any_eq_true.mp hA, ?_⟩
        intro p hp
        rw [Bool.eq_false_iff]
        intro hpm
        have hB : (compilePatterns exc).any (fun p => rxMatch p c) = true :=
          List.any_eq_true.mpr ⟨p, hp, hpm⟩
        rw [hB] at hinstr
        simp at hinstr
    · rintro ⟨hex, hall⟩
      have hA : (compilePatterns inc).any (fun p => rxMatch p c) = true :=
        List.any_eq_true.mpr hex
      have hB : (compilePatterns exc).any (fun p => rxMatch p c) = false := by
        rw [Bool.eq_false_iff]
        intro hB
        obtain ⟨p, hp, hpm⟩ := List.any_eq_true.mp hB
        rw [hall p hp] at hpm
        exact absurd hpm (by simp)
      rw [hA, hB]
      simp
  · intro inc exc
    unfold shouldInstrument
    simp

/-- Witness for `class_filter_spec`: the include `com.nimbly.**` with
exclude `com.nimbly.mcpjvmdebugger.agent.**` accepts an application
class and rejects the agent's own class. -/
theorem class_filter_spec_witness :
    shouldInstrument ["com.nimbly.**"] ["com.nimbly.mcpjvmdebugger.agent.**"]
      "com.nimbly.app.Api" = true ∧
    shouldInstrument ["com.nimbly.**"] ["com.nimbly.mcpjvmdebugger.agent.**"]
      "com.nimbly.mcpjvmdebugger.agent.ProbeAgent" = false := by
  have h := class_filter_spec
  constructor
  · exact (h.1 ["com.nimbly.**"] ["com.nimbly.mcpjvmdebugger.agent.**"]
      "com.nimbly.app.Api" (by decide)).mpr (by decide)
  · have hiff := h.1 ["com.nimbly.**"] ["com.nimbly.mcpjvmdebugger.agent.**"]
      "com.nimbly.mcpjvmdebugger.agent.ProbeAgent" (by decide)
    cases hval : shouldInstrument ["com.nimbly.**"]
        ["com.nimbly.mcpjvmdebugger.agent.**"]
        "com.nimbly.mcpjvmdebugger.agent.ProbeAgent" with
    | false => rfl
    | true =>
      obtain ⟨_, hall⟩ := hiff.mp hval
      have := hall (toRegex "com.nimbly.mcpjvmdebugger.agent.**") (by decide)
      exact absurd this (by decide)

/-! ## C9 — auth-resolution invariants -/

/-- C9: every auth resolution the planner produces satisfies both
implications: `status = auto_resolved` implies non-empty request
headers are attached, and `status = needs_user_input` implies the
`missing` list is present and non-empty — for every combination of
OpenAPI hints, controller security, supplied credentials and the
login-discovery flag, and for the two literal resolutions built inside
`generateRecipe`. -/
theorem auth_resolution_invariants :
    (∀ (openapi : OpenApiAuthHints) (controllerSecure : Bool)
      (tok user pass : Option String) (ld : Bool),
      ((resolveAuthForRecipe openapi controllerSecure tok user pass ld).status =
          "auto_resolved" →
        ∃ hs, (resolveAuthForRecipe openapi controllerSecure tok user pass
          ld).requestHeaders = some hs ∧ hs ≠ []) ∧
      ((resolveAuthForRecipe openapi controllerSecure tok user pass ld).status =
          "needs_user_input" →
        ∃ ms, (resolveAuthForRecipe openapi controllerSecure tok user pass
          ld).missing = some ms ∧ ms ≠ [])) ∧
    (generateRecipeNoControllerAuth.status = "needs_user_input" ∧
      ∃ ms, generateRecipeNoControllerAuth.missing = some ms ∧ ms ≠ []) ∧
    (generateRecipeUnresolvedAuth.status ≠ "auto_resolved" ∧
      generateRecipeUnresolvedAuth.status ≠ "needs_user_input") := by
  refine ⟨?_, ⟨rfl, ["authToken"], rfl, by decide⟩, by decide, by decide⟩
  intro openapi cs tok user pass ld
  by_cases hreq : (openapi.required || cs) = true
  · cases hu : firstProvided user "input.authUsername" with
    | some u =>
      cases hp : firstProvided pass "input.authPassword" with
      | some p =>
        cases ht : firstProvided tok "input.authToken" with
        | some t =>
          by_cases hnone : openapi.strategy = "none" <;>
            by_cases hbasic : openapi.strategy = "basic" <;>
            simp [resolveAuthForRecipe, hreq, hu, hp, ht, hnone, hbasic] <;>
            split <;> simp
        | none =>
          by_cases hnone : openapi.strategy = "none" <;>
            by_cases hbasic : openapi.strategy = "basic" <;>
            simp [resolveAuthForRecipe, hreq, hu, hp, ht, hnone, hbasic]
      | none =>
        cases ht : firstProvided tok "input.authToken" with
        | some t =>
          by_cases hnone : openapi.strategy = "none" <;>
            by_cases hbasic : openapi.strategy = "basic" <;>
            simp [resolveAuthForRecipe, hreq, hu, hp, ht, hnone, hbasic] <;>
            split <;> simp
        | none =>
          by_cases hnone : openapi.strategy = "none" <;>
            by_cases hbasic : openapi.strategy = "basic" <;>
            simp [resolveAuthForRecipe, hreq, hu, hp, ht, hnone, hbasic]
    | none =>
      cases hp : firstProvided pass "input.authPassword" with
      | some p =>
        cases ht : firstProvided tok "input.authToken" with
        | some t =>
          by_cases hnone : openapi.strategy = "none" <;>
            by_cases hbasic : openapi.strategy = "basic" <;>
            simp [resolveAuthForRecipe, hreq, hu, hp, ht, hnone, hbasic] <;>
            split <;> simp
        | none =>
          by_cases hnone : openapi.strategy = "none" <;>
            by_cases hbasic : openapi.strategy = "basic" <;>
            simp [resolveAuthForRecipe, hreq, hu, hp, ht, hnone, hbasic]
      | none =>
        cases ht : firstProvided tok "input.authToken" with
        | some t =>
          by_cases hnone : openapi.strategy = "none" <;>
            by_cases hbasic : openapi.strategy = "basic" <;>
            simp [resolveAuthForRecipe, hreq, hu, hp, ht, hnone, hbasic] <;>
            split <;> simp
        | none =>
          by_cases hnone : openapi.strategy = "none" <;>
            by_cases hbasic : openapi.strategy = "basic" <;>
            simp [resolveAuthForRecipe, hreq, hu, hp, ht, hnone, hbasic]
  · have hreq' : (openapi.required || cs) = false := by simpa using hreq
    simp [resolveAuthForRecipe, hreq']

/-- Witness for `auth_resolution_invariants`: a bearer token on a
secured route auto-resolves with a non-empty Authorization header, and
a secured route without credentials needs user input with a non-empty
missing list. -/
theorem auth_resolution_invariants_witness :
    (∃ hs, (resolveAuthForRecipe ⟨true, "bearer", [], none⟩ false
      (some "tok123456") none none false).requestHeaders = some hs ∧ hs ≠ []) ∧
    (∃ ms, (resolveAuthForRecipe ⟨true, "bearer", [], none⟩ false
      none none none false).missing = some ms ∧ ms ≠ []) := by
  have h := auth_resolution_invariants
  exact ⟨(h.1 ⟨true, "bearer", [], none⟩ false (some "tok123456") none none
      false).1 (by decide),
    (h.1 ⟨true, "bearer", [], none⟩ false none none none false).2 (by decide)⟩

/-! ## C4 — request-candidate emission policy -/

/-- C4 (counterexample): with no controller method mapping, no OpenAPI
hit, and a controller whose class-level `@RequestMapping` base path is
`/catalog`, the claim says no candidate may be emitted (the route was
resolved by neither source).  The code only suppresses the exact
`GET /` case, so here it fabricates a `GET /catalog` candidate from the
class base path alone. -/
theorem recipe_candidate_base_path_cex :
    candidateRouteResolved [] [] [] none none = false ∧
    (buildRecipeCandidateCore [] [] [] [] "putSettingsJson(?)" none
      "/catalog" none).1 = some basePathCexCandidate ∧
    basePathCexCandidate.method = "GET" ∧
    basePathCexCandidate.path = "/catalog" := by
  refine ⟨by decide, by decide, rfl, rfl⟩

/-- C4 (amended): `buildRecipeCandidate` emits no candidate exactly
when neither a controller method/interface mapping nor the OpenAPI
lookup resolved a route AND the path hint (the class-level base path,
after path-parameter substitution) is the root `/`; in particular an
unresolved route with a root base path yields no candidate, but a
non-root class base path alone does produce a `GET` candidate whose
path is that base path.  When a candidate is emitted, its method is the
mapping's method (default `GET`) and its path is the computed hint. -/
theorem recipe_candidate_emission_spec
    (cmp : List ControllerParam) (lrp : List LegacyParam)
    (argNames contextLines : List String) (mn : String)
    (em : Option (String × String)) (cbp : String) (oah : Option String) :
    ((buildRecipeCandidateCore cmp lrp argNames contextLines mn em cbp oah).1 =
        none ↔
      (candidateRouteResolved cmp lrp argNames em oah = false ∧
       candidatePathHint cmp lrp argNames em cbp oah = "/")) ∧
    (∀ r, (buildRecipeCandidateCore cmp lrp argNames contextLines mn em cbp
        oah).1 = some r →
      r.method = (em.map Prod.fst).getD "GET" ∧
      r.path = candidatePathHint cmp lrp argNames em cbp oah) := by
  unfold buildRecipeCandidateCore
  by_cases hr : candidateRouteResolved cmp lrp argNames em oah = true
  · simp only [hr, Bool.not_true, Bool.false_and, Bool.false_eq_true, if_false]
    constructor
    · simp
    · intro r hrr
      obtain ⟨rfl⟩ := Option.some.inj hrr
      exact ⟨rfl, rfl⟩
  · have hr' : candidateRouteResolved cmp lrp argNames em oah = false := by
      simpa using hr
    by_cases hp : candidatePathHint cmp lrp argNames em cbp oah = "/"
    · simp [hr', hp]
    · simp only [hr', Bool.not_false, Bool.true_and, hp, decide_eq_true_eq,
        if_neg hp]
      constructor
      · simp [hp]
      · intro r hrr
        obtain ⟨rfl⟩ := Option.some.inj hrr
        exact ⟨rfl, rfl⟩

/-- Witness for `recipe_candidate_emission_spec`: an unresolved route
with root base path emits nothing; a resolved `GET /catalog/items`
mapping emits a candidate with that method and path. -/
theorem recipe_candidate_emission_spec_witness :
    (buildRecipeCandidateCore [] [] [] [] "m(?)" none "/" none).1 = none ∧
    (∀ r, (buildRecipeCandidateCore [] [] [] [] "m(?)"
        (some ("GET", "/catalog/items")) "/catalog" none).1 = some r →
      r.method = "GET" ∧ r.path = "/catalog/items") := by
  have h1 := recipe_candidate_emission_spec [] [] [] [] "m(?)" none "/" none
  have h2 := recipe_candidate_emission_spec [] [] [] [] "m(?)"
    (some ("GET", "/catalog/items")) "/catalog" none
  constructor
  · exact h1.1.mpr ⟨by decide, by decide⟩
  · intro r hrr
    have := h2.2 r hrr
    simpa using this

/-! ## C5 — actuated fallback scenario -/

/-- C5 (code bug): the repository's own test
("generateRecipe falls back to actuated mode when natural request is
unavailable") asserts that with no controller in the tree and no
explicit mode, the plan is `actuated` with phases
`[prepare, verify, cleanup]` and a mode reason matching
`/actuation is required/i`.  `generateRecipe` defaults the requested
mode to `natural` and never switches, and in that scenario (no request
candidate, fallback auth `needs_user_input`) `buildRecipeExecutionPlan`
returns a `natural` plan with natural phases `[prepare, prepare,
verify]`, empty actuated steps, and a mode reason that does not mention
actuation being required. -/
theorem actuated_fallback_code_bug :
    (buildRecipeExecutionPlan (some "natural")
      (some "com.example.CatalogSpecs#finalPriceLte")
      (some "/proj/src/main/java/com/example/CatalogSpecs.java") none none
      generateRecipeNoControllerAuth).mode = "natural" ∧
    "natural" ≠ "actuated" ∧
    (buildRecipeExecutionPlan (some "natural")
      (some "com.example.CatalogSpecs#finalPriceLte")
      (some "/proj/src/main/java/com/example/CatalogSpecs.java") none none
      generateRecipeNoControllerAuth).actuatedSteps = [] ∧
    (buildRecipeExecutionPlan (some "natural")
      (some "com.example.CatalogSpecs#finalPriceLte")
      (some "/proj/src/main/java/com/example/CatalogSpecs.java") none none
      generateRecipeNoControllerAuth).naturalSteps.map (fun s => s.phase) =
      ["prepare", "prepare", "verify"] ∧
    strIncludes (lowerStr (buildRecipeExecutionPlan (some "natural")
      (some "com.example.CatalogSpecs#finalPriceLte")
      (some "/proj/src/main/java/com/example/CatalogSpecs.java") none none
      generateRecipeNoControllerAuth).modeReason) "actuation is required" =
      false := by
  refine ⟨by decide, by decide, by decide, by decide, by decide⟩

end Spec2Proof
